import Mathlib

/-!
Verification development for the causal-and-pattern discovery engine of the
metabolic-story-teller repository.

The embedding follows the two services:
  * `backend/app/services/pcmci_service.py` (class `PCMCIAnalyzer`):
    the fallback lag-scanned correlation analysis, PCMCI link extraction,
    graph formatting and the `analyze_causality` orchestration, and
  * `backend/app/services/stumpy_service.py` (class `StumpyPatternDetector`):
    NaN preparation of the glucose series and the fallback z-score anomaly
    detector.

Modelling conventions:
  * Data cells are `Option ℚ` (`none` models a float NaN in the input data).
  * Computed floating-point quantities are modelled with the four-branch type
    `FVal` (finite real, +inf, -inf, NaN), with comparison semantics copied
    from IEEE-754: every comparison with NaN is false, `-inf < a` is true.
  * Machine floats are idealised as real numbers: rounding is not modelled.
  * `pandas.DataFrame.sort_index` is modelled as a stable sort on the date
    key (pandas does not specify the relative order of rows with equal keys;
    the stable sort fixes one deterministic realisation of it).
  * Python's iteration order over a `set` of strings is unspecified, so the
    node set built by `format_causal_graph` is modelled as an in-insertion-
    order deduplicated list and all theorems about it are stated up to
    membership and duplicate-freedom only.
  * `scipy.stats.t.cdf` is modelled by the genuine Student-t cumulative
    distribution function `tcdf` (an integral of the density); its value at
    `+inf` is 1, which the branch for an infinite t-statistic hardcodes,
    exactly as the scipy evaluation at an infinite float argument yields 1.
-/

namespace MetabolicStoryTeller

/-- IEEE-style value of a floating-point computation: a finite real, one of
the two infinities, or NaN. -/
inductive FVal where
  | fin (x : ℝ)
  | pinf
  | ninf
  | nan
deriving Inhabited

namespace FVal

/-- `a < c` for a float `a` against a finite float `c`: NaN compares false,
`-inf < c` is true, `+inf < c` is false. -/
def flt : FVal → ℝ → Prop
  | fin x, c => x < c
  | ninf, _ => True
  | pinf, _ => False
  | nan, _ => False

/-- `abs a > c` for a float `a` against a finite float `c ≥ 0`: NaN compares
false, both infinities have infinite absolute value. -/
def absGt : FVal → ℝ → Prop
  | fin x, c => c < |x|
  | ninf, _ => True
  | pinf, _ => True
  | nan, _ => False

/-- The float is a finite real. -/
def isFinite : FVal → Prop
  | fin _ => True
  | _ => False

end FVal

/-! ### Significance tester

`pcmci_service.py`, `_fallback_correlation_analysis` lines 167-174:
```
t_stat = corr * np.sqrt(n - 2) / np.sqrt(1 - corr**2)
p_value = 2 * (1 - stats.t.cdf(abs(t_stat), n - 2))
```
-/

/-- Density of the Student-t distribution with `df` degrees of freedom. -/
noncomputable def tPdf (df : ℕ) (u : ℝ) : ℝ :=
  Real.Gamma (((df : ℝ) + 1) / 2) /
    (Real.sqrt ((df : ℝ) * Real.pi) * Real.Gamma ((df : ℝ) / 2)) *
    (1 + u ^ 2 / (df : ℝ)) ^ (-(((df : ℝ) + 1) / 2))

open MeasureTheory in
/-- Cumulative distribution function of the Student-t distribution with `df`
degrees of freedom, the model of `scipy.stats.t.cdf`. -/
noncomputable def tcdf (x : ℝ) (df : ℕ) : ℝ :=
  ∫ u in Set.Iic x, tPdf df u

/-- The t-statistic `corr * np.sqrt(n - 2) / np.sqrt(1 - corr**2)` under
IEEE semantics: for `n < 2` the square root of the negative `n - 2` is NaN
and propagates; when `1 - r² > 0` the statistic is finite; when
`1 - r² = 0` (a correlation of exactly ±1) the float division by zero
yields a signed infinity; when `1 - r² < 0` the square root of a negative
number is NaN and the division propagates it.  The scanner only evaluates
it with `n > 10` and `|r| ≤ 1`. -/
noncomputable def tStat (r : ℝ) (n : ℕ) : FVal :=
  if n < 2 then .nan
  else if 0 < 1 - r ^ 2 then
    .fin (r * Real.sqrt ((n : ℝ) - 2) / Real.sqrt (1 - r ^ 2))
  else if 1 - r ^ 2 = 0 then
    (if 0 < r then .pinf else if r < 0 then .ninf else .nan)
  else .nan

/-- The two-tailed p-value `2 * (1 - stats.t.cdf(abs(t_stat), n - 2))`.
An infinite t-statistic has `abs(t_stat) = +inf` and `cdf(+inf) = 1`, so the
p-value is exactly 0; a NaN t-statistic propagates to a NaN p-value. -/
noncomputable def studentPValue (t : FVal) (df : ℕ) : FVal :=
  match t with
  | .fin x => .fin (2 * (1 - tcdf |x| df))
  | .pinf => .fin 0
  | .ninf => .fin 0
  | .nan => .nan

/-! ### Pearson correlation of a list of valid pairs

Model of `pandas.Series.corr` on the masked (all-valid) pair sample: the
centred cross-sum divided by the product of the square roots of the centred
square sums; when either variance vanishes the float result is NaN
(modelled as `none`). -/

/-- Arithmetic mean of a rational list (0 for the empty list, as the code
never evaluates a correlation on an empty sample). -/
def listMean (l : List ℚ) : ℚ := l.sum / l.length

/-- Centred cross-sum `Σ (x - mean x)(y - mean y)` over a pair sample. -/
def crossSum (ps : List (ℚ × ℚ)) : ℚ :=
  let mx := listMean (ps.map Prod.fst)
  let my := listMean (ps.map Prod.snd)
  (ps.map (fun p => (p.1 - mx) * (p.2 - my))).sum

/-- Centred square sum of the first components. -/
def sqSumFst (ps : List (ℚ × ℚ)) : ℚ :=
  let mx := listMean (ps.map Prod.fst)
  (ps.map (fun p => (p.1 - mx) ^ 2)).sum

/-- Centred square sum of the second components. -/
def sqSumSnd (ps : List (ℚ × ℚ)) : ℚ :=
  let my := listMean (ps.map Prod.snd)
  (ps.map (fun p => (p.2 - my) ^ 2)).sum

/-- Pearson correlation of a pair sample; `none` models the NaN that pandas
returns when either component has zero variance. -/
noncomputable def pearson (ps : List (ℚ × ℚ)) : Option ℝ :=
  if sqSumFst ps = 0 ∨ sqSumSnd ps = 0 then none
  else some ((crossSum ps : ℝ) /
    (Real.sqrt (sqSumFst ps) * Real.sqrt (sqSumSnd ps)))

/-! ### Causal discovery engine (`pcmci_service.py`, class `PCMCIAnalyzer`)

The environment is modelled with Tigramite unavailable, so
`analyze_causality` takes the fallback correlation path; the PCMCI-path link
extraction `_extract_causal_links` is embedded separately as a function of
the value and p-value matrices that Tigramite would supply. -/

/-- A data table: one row per entry, carrying the date-index key and the
named numeric columns (a `none` cell is a missing value / NaN). -/
def Table := List (ℕ × (String → Option ℚ))

/-- A discovered causal link (the dict appended by both the fallback scanner
and `_extract_causal_links`; only the fallback dict carries the
`sample_size` key, hence the `Option`). -/
structure CausalLink where
  fromVar : String
  toVar : String
  lag : ℕ
  strength : FVal
  pValue : FVal
  confidence : String
  sampleSize : Option ℕ

/-- Result dictionary of `_fallback_correlation_analysis`. -/
structure FallbackResult where
  method : String
  causalLinks : List CausalLink
  varNames : List String
  tauMax : ℕ
  alphaLevel : ℝ
  sampleSize : ℕ

/-- Result of `analyze_causality` in the fallback configuration: the two
insufficient-data dictionaries or the fallback analysis result. -/
inductive AnalysisResult where
  | insufficient (dataPoints required : ℕ)
  | insufficientClean (dataPoints required : ℕ)
  | fallback (r : FallbackResult)

/-- `data[var_x].shift(lag)`: move the column down by `lag` positions,
filling the first `lag` entries with NaN and dropping the overflow. -/
def shiftLag (lag : ℕ) (col : List (Option ℚ)) : List (Option ℚ) :=
  List.replicate lag none ++ col.take (col.length - lag)

/-- `valid_mask = ~(x_shifted.isna() | data[var_y].isna())` followed by the
masked selection: the list of positions where both series are present. -/
def validPairs (xc yc : List (Option ℚ)) : List (ℚ × ℚ) :=
  (xc.zip yc).filterMap (fun p =>
    match p.1, p.2 with
    | some u, some v => some (u, v)
    | _, _ => none)

/-- The (source index, target index, lag) triples visited by the fallback
scanner loops: `i ≠ j`, lags `0..tau_max`, skipping `lag == 0 and i >= j`
(the contemporaneous-duplicate guard). -/
def scannedCandidates (nvars tauMax : ℕ) : List (ℕ × ℕ × ℕ) :=
  (List.range nvars).flatMap (fun i =>
    (List.range nvars).flatMap (fun j =>
      if i = j then []
      else (List.range (tauMax + 1)).filterMap (fun lag =>
        if lag = 0 ∧ j ≤ i then none else some (i, j, lag))))

open Classical in
/-- Body of the fallback scanner for one (source, target, lag) candidate:
shift, mask, the `valid_mask.sum() < 10` skip, the
`abs(corr) > 0.3 and n > 10` gate, the t-test, and the
`p_value < self.alpha_level` emission gate with the high/medium confidence
split at 0.01. -/
noncomputable def processPair (alpha : ℝ) (xc yc : List (Option ℚ))
    (xn yn : String) (lag : ℕ) : Option CausalLink :=
  let ps := validPairs (shiftLag lag xc) yc
  let n := ps.length
  if n < 10 then none
  else
    match pearson ps with
    | none => none
    | some r =>
      if 3 / 10 < |r| ∧ 10 < n then
        match studentPValue (tStat r n) (n - 2) with
        | .fin p =>
          if p < alpha then
            some ⟨xn, yn, lag, .fin r, .fin p,
              (if p < 1 / 100 then "high" else "medium"), some n⟩
          else none
        | _ => none
      else none

/-- Column of a table under a variable name. -/
def colOf (t : Table) (v : String) : List (Option ℚ) :=
  t.map (fun row => row.2 v)

/-- `_fallback_correlation_analysis`: scan every ordered variable pair at
every admissible lag and collect the surviving links. -/
noncomputable def fallbackCorrelationAnalysis (tauMax : ℕ) (alpha : ℝ)
    (t : Table) (vars : List String) : FallbackResult where
  method := "Fallback Correlation"
  causalLinks := (scannedCandidates vars.length tauMax).filterMap
    (fun c => processPair alpha (colOf t (vars.getD c.1 ""))
      (colOf t (vars.getD c.2.1 "")) (vars.getD c.1 "") (vars.getD c.2.1 "")
      c.2.2)
  varNames := vars
  tauMax := tauMax
  alphaLevel := alpha
  sampleSize := t.length

/-- Python stable sort key order for `causal_links.sort(key=abs(strength),
reverse=True)`: `a` precedes `b` when `abs(a.strength) >= abs(b.strength)`
(comparisons against NaN are false, so NaN strengths stay put only through
stability — exactly the unspecified float behaviour, fixed here by the
match). -/
def strengthGe (a b : CausalLink) : Prop :=
  match a.strength, b.strength with
  | .fin x, .fin y => |y| ≤ |x|
  | .fin _, .nan => False
  | .fin _, _ => False
  | .pinf, .fin _ => True
  | .ninf, .fin _ => True
  | _, _ => False

open Classical in
/-- `_extract_causal_links`: iterate targets, sources and lags over the
PCMCI value/p-value matrices, keep the triples with `p_val < alpha` and
`abs(val) > 0.1`, and sort by descending absolute strength.  The matrices
are the float arrays returned by Tigramite. -/
noncomputable def extractCausalLinks (tauMax : ℕ) (alpha : ℝ)
    (valM pM : ℕ → ℕ → ℕ → FVal) (vars : List String) : List CausalLink :=
  List.insertionSort strengthGe
    ((List.range vars.length).flatMap (fun j =>
      (List.range vars.length).flatMap (fun i =>
        (List.range (tauMax + 1)).filterMap (fun tau =>
          if (pM i j tau).flt alpha ∧ (valM i j tau).absGt (1 / 10) then
            some ⟨vars.getD i "", vars.getD j "", tau, valM i j tau,
              pM i j tau,
              (if (pM i j tau).flt (1 / 100) then "high" else "medium"),
              none⟩
          else none))))

/-- `data.sort_index()`: stable sort of the rows by their date key (pandas
leaves the relative order of duplicate keys unspecified; the stable
insertion sort fixes one deterministic realisation). -/
noncomputable def sortByDate (t : Table) : Table :=
  List.insertionSort (fun a b => a.1 ≤ b.1) t

/-- `data[variables].copy()` followed by `.dropna()`: keep the rows in which
every requested variable is present. -/
def dropnaRows (t : Table) (vars : List String) : Table :=
  t.filter (fun row => vars.all (fun v => (row.2 v).isSome))

/-- `analyze_causality` in the fallback configuration: the raw-row-count
precondition, the sort, the column selection and row-wise clean, the clean
precondition, then the fallback correlation analysis. -/
noncomputable def analyzeCausality (tauMax : ℕ) (alpha : ℝ) (t : Table)
    (vars : List String) (minDataPoints : ℕ) : AnalysisResult :=
  if t.length < minDataPoints then
    .insufficient t.length minDataPoints
  else
    let varData := dropnaRows (sortByDate t) vars
    if varData.length < minDataPoints then
      .insufficientClean varData.length minDataPoints
    else
      .fallback (fallbackCorrelationAnalysis tauMax alpha varData vars)

/-! ### Graph formatting (`format_causal_graph`) -/

/-- A graph node `{"id": node, "label": node}`. -/
structure GraphNode where
  id : String
  label : String
deriving DecidableEq

/-- A graph edge. -/
structure GraphEdge where
  source : String
  target : String
  label : String
  strength : FVal
  pValue : FVal
  confidence : String

/-- The result of `format_causal_graph`. -/
structure CausalGraph where
  nodes : List GraphNode
  edges : List GraphEdge

/-- In-order deduplication, the model of accumulating `nodes.add(...)` into
a Python set and listing it. -/
def dedupInOrder (l : List String) : List String :=
  l.foldl (fun acc x => if x ∈ acc then acc else acc ++ [x]) []

/-- The edge built for one link:
`edge_label = f"lag={lag}d" if lag > 0 else "same day"`. -/
def edgeOfLink (l : CausalLink) : GraphEdge where
  source := l.fromVar
  target := l.toVar
  label := if 0 < l.lag then "lag=" ++ toString l.lag ++ "d" else "same day"
  strength := l.strength
  pValue := l.pValue
  confidence := l.confidence

/-- `format_causal_graph`: the deduplicated node set over all source and
target names, and one edge per link. -/
def formatCausalGraph (links : List CausalLink) : CausalGraph where
  nodes := (dedupInOrder (links.flatMap
    (fun l => [l.fromVar, l.toVar]))).map (fun v => ⟨v, v⟩)
  edges := links.map edgeOfLink

/-! ### Spec-side definitions (refinement targets)

These two definitions follow the words of the specification, not the code;
they exist to be compared against the code-derived definitions above. -/

open Classical in
/-- Modelled from the spec: the claimed confidence tier map, `high` below
0.01, `medium` in `[0.01, 0.05)`, `low` at or above 0.05. -/
noncomputable def specConfidenceTier (p : ℝ) : String :=
  if p < 1 / 100 then "high" else if p < 1 / 20 then "medium" else "low"

/-- Modelled from the spec: the claimed human-readable lag label,
`"same day"` for lag 0, else `"{lag}d"` (e.g. `"2d"`). -/
def specLagLabel (lag : ℕ) : String :=
  if lag = 0 then "same day" else toString lag ++ "d"

/-! ### Pattern engine (`stumpy_service.py`, class `StumpyPatternDetector`)

The glucose series is a list of cells (`none` = NaN); the timestamp index is
identified with the list position (the service only reads
`glucose_series.index[idx]` to label output records). -/

/-- Index of the last present value strictly before position `i`. -/
def lastSomeBefore (s : List (Option ℚ)) (i : ℕ) : Option (ℕ × ℚ) :=
  (List.range i).reverse.findSome? (fun j => (s.getD j none).map (fun v => (j, v)))

/-- Index of the first present value strictly after position `i`. -/
def firstSomeAfter (s : List (Option ℚ)) (i : ℕ) : Option (ℕ × ℚ) :=
  (List.range (s.length - i - 1)).findSome?
    (fun d => (s.getD (i + d + 1) none).map (fun v => (i + d + 1, v)))

/-- `pd.Series(values).interpolate(method='linear')`: interior NaNs get the
linear interpolation between the surrounding present values, trailing NaNs
are forward-filled with the last present value, leading NaNs stay NaN. -/
def linearInterp (s : List (Option ℚ)) : List (Option ℚ) :=
  (List.range s.length).map (fun i =>
    match s.getD i none with
    | some v => some v
    | none =>
      match lastSomeBefore s i, firstSomeAfter s i with
      | some jv, some kv =>
        some (jv.2 + (kv.2 - jv.2) * ((i : ℚ) - jv.1) / ((kv.1 : ℚ) - jv.1))
      | some jv, none => some jv.2
      | none, _ => none)

/-- Value preparation on the primary STUMPY paths of both
`detect_recurring_patterns` (lines 79-87) and `detect_anomalies` (lines
176-180): `if np.isnan(values).any(): values = pd.Series(values)
.interpolate(method='linear').values`. -/
def primaryValues (s : List (Option ℚ)) : List (Option ℚ) :=
  if s.any (fun c => c.isNone) then linearInterp s else s

/-- Value acquisition in both fallback methods
(`_fallback_pattern_detection` line 234 and `_fallback_anomaly_detection`
line 296): `values = glucose_series.values` — the raw series, with no
interpolation step. -/
def fallbackValues (s : List (Option ℚ)) : List (Option ℚ) := s

/-- The rolling window of width `w` ending at position `i`. -/
def rollingWindow (s : List (Option ℚ)) (i w : ℕ) : List (Option ℚ) :=
  (s.drop (i + 1 - w)).take w

/-- `pd.Series(values).rolling(window_size).mean()`: NaN on the first
`w - 1` positions and on any window containing a NaN, else the window
mean. -/
def rollingMean (w : ℕ) (s : List (Option ℚ)) : List (Option ℚ) :=
  (List.range s.length).map (fun i =>
    if i + 1 < w then none
    else
      let win := rollingWindow s i w
      if win.any (fun c => c.isNone) then none
      else some ((win.filterMap id).sum / w))

/-- `pd.Series(values).rolling(window_size).std()`: NaN on the first `w - 1`
positions, on any window containing a NaN and for `w < 2` (the sample
standard deviation with `ddof = 1` of a single point is NaN), else the
square root of the sample variance. -/
noncomputable def rollingStd (w : ℕ) (s : List (Option ℚ)) : List (Option ℝ) :=
  (List.range s.length).map (fun i =>
    if i + 1 < w ∨ w < 2 then none
    else
      let win := rollingWindow s i w
      if win.any (fun c => c.isNone) then none
      else
        let vals := win.filterMap id
        let m := listMean vals
        some (Real.sqrt (((vals.map (fun x => ((x - m : ℚ) : ℝ) ^ 2)).sum) /
          ((w : ℝ) - 1))))

/-- `z_scores = np.abs((values - moving_mean) / (moving_std + 1e-6))`:
NaN (`none`) as soon as the value, the rolling mean or the rolling std is
NaN; otherwise finite, the denominator being guarded by the epsilon. -/
noncomputable def zScores (s : List (Option ℚ)) (w : ℕ) : List (Option ℝ) :=
  (List.range s.length).map (fun i =>
    match s.getD i none, (rollingMean w s).getD i none,
      (rollingStd w s).getD i none with
    | some v, some m, some sd => some |((v : ℝ) - (m : ℝ)) / (sd + 1 / 1000000)|
    | _, _, _ => none)

/-- Ascending float comparison used by `np.argsort` on the z-scores: NaN
sorts after every number, NaN against NaN ties. -/
def zle : Option ℝ → Option ℝ → Prop
  | some x, some y => x ≤ y
  | some _, none => True
  | none, some _ => False
  | none, none => True

open Classical in
/-- `np.argsort(z_scores)`: the positions `0 .. n-1` sorted ascending by
z-score with NaN last (numpy leaves the relative order of ties unspecified;
the stable insertion sort fixes one deterministic realisation). -/
noncomputable def argsortZ (z : List (Option ℝ)) : List ℕ :=
  List.insertionSort (fun i j => zle (z.getD i none) (z.getD j none))
    (List.range z.length)

/-- One anomaly dict emitted by `_fallback_anomaly_detection`. -/
structure Anomaly where
  anomalyId : ℕ
  timestamp : ℕ
  value : ℚ
  zScore : ℝ
  severity : String

/-- Result dictionary of `_fallback_anomaly_detection`. -/
structure AnomalyResult where
  method : String
  anomaliesFound : ℕ
  anomalies : List Anomaly

open Classical in
/-- `_fallback_anomaly_detection`: rolling z-scores, the top-`k` selection
`np.argsort(z_scores)[-top_k:][::-1]` (for `top_k = 0` the Python slice
`[-0:]` is the whole list), the NaN skip inside the loop (which keeps
counting ranks), and the severity split at `z > 3`. -/
noncomputable def fallbackAnomalyDetection (s : List (Option ℚ)) (w k : ℕ) :
    AnomalyResult :=
  let z := zScores s w
  let selected := if k = 0 then (argsortZ z).reverse
    else ((argsortZ z).drop (z.length - k)).reverse
  let anomalies := selected.enum.filterMap (fun ri =>
    match z.getD ri.2 none with
    | none => none
    | some zv => some ⟨ri.1 + 1, ri.2, (s.getD ri.2 none).getD 0, zv,
        if 3 < zv then "high" else "medium"⟩)
  ⟨"Fallback Z-Score", anomalies.length, anomalies⟩

/-! ### Concrete evaluation data

A small table on which the fallback scanner provably emits a link: two
identical strictly increasing columns give a lag-0 Pearson correlation of
exactly 1, hence an infinite t-statistic and a p-value of exactly 0. -/

/-- Twelve strictly increasing sample values. -/
def wVals : List ℚ := [1, 2, 3, 4, 5, 6, 7, 8, 9, 10, 11, 12]

/-- A table row with the same value in columns `x` and `y`. -/
def wRow (q : ℚ) : String → Option ℚ :=
  fun v => if v = "x" then some q else if v = "y" then some q else none

/-- Twelve rows (all dated 0) with identical `x` and `y` columns. -/
def wTable : Table := wVals.map (fun q => (0, wRow q))

/-- The link the fallback scanner emits on `wTable` with `tau_max = 0` and
`alpha_level = 0.05`. -/
noncomputable def wLink : CausalLink := ⟨"x", "y", 0, .fin 1, .fin 0, "high", some 12⟩

/-- PCMCI value matrix with a single strong entry at `(i, j) = (0, 1)`. -/
noncomputable def c5ValM : ℕ → ℕ → ℕ → FVal :=
  fun i j _ => if i = 0 ∧ j = 1 then .fin (1 / 2) else .fin 0

/-- PCMCI p-value matrix, constant at 0.1 (significant only when the
configured `alpha_level` exceeds 0.1). -/
noncomputable def c5PM : ℕ → ℕ → ℕ → FVal := fun _ _ _ => .fin (1 / 10)

/-- The link `_extract_causal_links` emits from `c5ValM`/`c5PM` at
`alpha_level = 0.2`. -/
noncomputable def c5Link : CausalLink :=
  ⟨"a", "b", 0, .fin (1 / 2), .fin (1 / 10), "medium", none⟩

/-- A causal link with lag 2, for exercising the graph formatting. -/
noncomputable def c6Link : CausalLink := ⟨"a", "b", 2, .fin (1 / 2), .fin 0, "high", none⟩

/-- A table row with a single column `x`. -/
def xRow (q : Option ℚ) : String → Option ℚ :=
  fun v => if v = "x" then q else none

/-- Two complete rows: one fewer than a `min_data_points` of 3. -/
def tableTwoRows : Table := [(0, xRow (some 1)), (1, xRow (some 2))]

/-- Three rows of which one is missing the requested variable. -/
def tableOneHole : Table :=
  [(0, xRow (some 1)), (1, xRow none), (2, xRow (some 3))]

/-- Exactly three clean rows. -/
def tableThreeClean : Table :=
  [(0, xRow (some 1)), (1, xRow (some 2)), (2, xRow (some 3))]

/-- Two rows with distinct dates, in date order. -/
def tableSorted1 : Table := [(1, xRow (some 1)), (2, xRow (some 2))]

/-- The same two rows, swapped. -/
def tableSorted2 : Table := [(2, xRow (some 2)), (1, xRow (some 1))]

/-- A table row with columns `x` and `y`. -/
def dupRow (qx qy : ℚ) : String → Option ℚ :=
  fun v => if v = "x" then some qx else if v = "y" then some qy else none

/-- Twelve rows that all carry the same date 0, with `x` the 4-periodic
wave 0, 1, 0, -1, … and `y` its one-step delay (`y_t = x_{t-1}`): at lag 1
the pair `x → y` is perfectly correlated, `y → x` is perfectly
anticorrelated, and contemporaneously the two columns are orthogonal. -/
def tableDupA : Table :=
  [(0, dupRow 0 (-1)), (0, dupRow 1 0), (0, dupRow 0 1), (0, dupRow (-1) 0),
   (0, dupRow 0 (-1)), (0, dupRow 1 0), (0, dupRow 0 1), (0, dupRow (-1) 0),
   (0, dupRow 0 (-1)), (0, dupRow 1 0), (0, dupRow 0 1), (0, dupRow (-1) 0)]

/-- The same rows in reverse order: a permutation of `tableDupA` that the
equal-keyed sort leaves in reverse order, flipping the delay direction. -/
def tableDupB : Table := tableDupA.reverse

/-- The first link the scanner emits on `tableDupA` (`x → y` at lag 1,
strength exactly 1). -/
noncomputable def linkA1 : CausalLink :=
  ⟨"x", "y", 1, .fin 1, .fin 0, "high", some 11⟩

/-- The second link on `tableDupA` (`y → x` at lag 1, strength -1). -/
noncomputable def linkA2 : CausalLink :=
  ⟨"y", "x", 1, .fin (-1), .fin 0, "high", some 11⟩

/-- The first link on `tableDupB` (`x → y` at lag 1, strength -1). -/
noncomputable def linkB1 : CausalLink :=
  ⟨"x", "y", 1, .fin (-1), .fin 0, "high", some 11⟩

/-- The second link on `tableDupB` (`y → x` at lag 1, strength 1). -/
noncomputable def linkB2 : CausalLink :=
  ⟨"y", "x", 1, .fin 1, .fin 0, "high", some 11⟩

/-- A glucose series with one interior NaN, flanked by present values. -/
def c4Series : List (Option ℚ) :=
  [some 0, some 0, none, some 0, some 0, some 0]

/-- The linear interpolation of `c4Series`: the NaN filled with 0. -/
def c4Interp : List (Option ℚ) :=
  [some 0, some 0, some 0, some 0, some 0, some 0]

/-- A long, fully populated, constant glucose series (100 points). -/
def c10Series : List (Option ℚ) := List.replicate 100 (some 100)

/-- The single anomaly the fallback z-score detector emits on the
interpolated `c4Series` with window 2 and `top_k = 2` (rank 2 because the
rank-1 slot holds the NaN z-score of position 0 and is skipped). -/
noncomputable def anomalyW : Anomaly := ⟨2, 5, 0, 0, "medium"⟩

/-! ### Helper lemmas: inverting the fallback scanner -/

/-- Unfolding of a successful `processPair`: every emitted link passed the
sample-size, effect-size and significance gates, and its recorded fields are
exactly the gated quantities. -/
lemma processPair_inv {alpha : ℝ} {xc yc : List (Option ℚ)} {xn yn : String}
    {lag : ℕ} {link : CausalLink}
    (h : processPair alpha xc yc xn yn lag = some link) :
    ∃ r p, pearson (validPairs (shiftLag lag xc) yc) = some r ∧
      3 / 10 < |r| ∧ 10 < (validPairs (shiftLag lag xc) yc).length ∧
      studentPValue (tStat r (validPairs (shiftLag lag xc) yc).length)
        ((validPairs (shiftLag lag xc) yc).length - 2) = .fin p ∧
      p < alpha ∧
      link = ⟨xn, yn, lag, .fin r, .fin p,
        (if p < 1 / 100 then "high" else "medium"),
        some (validPairs (shiftLag lag xc) yc).length⟩ := by
  simp only [processPair] at h
  split at h
  · exact absurd h (by simp)
  · split at h
    · exact absurd h (by simp)
    · rename_i r hr
      split at h
      · rename_i hgate
        split at h
        · rename_i p hp
          split at h
          · rename_i hpa
            exact ⟨r, p, hr, hgate.1, hgate.2, hp, hpa, (Option.some_inj.mp h).symm⟩
          · exact absurd h (by simp)
        · exact absurd h (by simp)
      · exact absurd h (by simp)

/-- Membership in the fallback link list comes from a scanned candidate. -/
lemma mem_fallbackLinks {tauMax : ℕ} {alpha : ℝ} {t : Table}
    {vars : List String} {link : CausalLink} :
    link ∈ (fallbackCorrelationAnalysis tauMax alpha t vars).causalLinks ↔
      ∃ c ∈ scannedCandidates vars.length tauMax,
        processPair alpha (colOf t (vars.getD c.1 ""))
          (colOf t (vars.getD c.2.1 "")) (vars.getD c.1 "")
          (vars.getD c.2.1 "") c.2.2 = some link := by
  simp [fallbackCorrelationAnalysis, List.mem_filterMap]

/-- Characterisation of the scanned candidate triples. -/
lemma mem_scannedCandidates {nvars tauMax i j lag : ℕ} :
    (i, j, lag) ∈ scannedCandidates nvars tauMax ↔
      i < nvars ∧ j < nvars ∧ i ≠ j ∧ lag ≤ tauMax ∧
        ¬(lag = 0 ∧ j ≤ i) := by
  simp only [scannedCandidates, List.mem_flatMap, List.mem_range]
  constructor
  · rintro ⟨a, ha, b, hb, hf⟩
    by_cases hab : a = b
    · rw [if_pos hab] at hf
      simp at hf
    · rw [if_neg hab, List.mem_filterMap] at hf
      obtain ⟨c, hc, hcc⟩ := hf
      split at hcc
      · simp at hcc
      · rename_i hskip
        injection hcc with e1
        obtain ⟨ea, eb, ec⟩ : a = i ∧ b = j ∧ c = lag := by
          have e2 := congrArg Prod.fst e1
          have e3 := congrArg (fun q => q.2.1) e1
          have e4 := congrArg (fun q => q.2.2) e1
          exact ⟨e2, e3, e4⟩
        subst ea; subst eb; subst ec
        exact ⟨ha, hb, hab, Nat.lt_succ_iff.mp (List.mem_range.mp hc), hskip⟩
  · rintro ⟨hi, hj, hne, hlag, hskip⟩
    refine ⟨i, hi, j, hj, ?_⟩
    rw [if_neg hne, List.mem_filterMap]
    exact ⟨lag, List.mem_range.mpr (Nat.lt_succ_of_le hlag), by rw [if_neg hskip]⟩

open Classical in
/-- Membership in the extracted PCMCI link list (the sort is a
permutation, so membership reduces to the generating triple loop). -/
lemma mem_extractCausalLinks {tauMax : ℕ} {alpha : ℝ}
    {valM pM : ℕ → ℕ → ℕ → FVal} {vars : List String} {link : CausalLink} :
    link ∈ extractCausalLinks tauMax alpha valM pM vars ↔
      ∃ j < vars.length, ∃ i < vars.length, ∃ tau ≤ tauMax,
        (pM i j tau).flt alpha ∧ (valM i j tau).absGt (1 / 10) ∧
        link = ⟨vars.getD i "", vars.getD j "", tau, valM i j tau, pM i j tau,
          (if (pM i j tau).flt (1 / 100) then "high" else "medium"),
          none⟩ := by
  unfold extractCausalLinks
  rw [(List.perm_insertionSort _ _).mem_iff]
  simp only [List.mem_flatMap, List.mem_range, List.mem_filterMap]
  constructor
  · rintro ⟨j, hj, i, hi, tau, htau, hf⟩
    split at hf
    · rename_i hgate
      exact ⟨j, hj, i, hi, tau, Nat.lt_succ_iff.mp htau, hgate.1, hgate.2,
        (Option.some_inj.mp hf).symm⟩
    · simp at hf
  · rintro ⟨j, hj, i, hi, tau, htau, h1, h2, he⟩
    refine ⟨j, hj, i, hi, tau, Nat.lt_succ_of_le htau, ?_⟩
    rw [if_pos ⟨h1, h2⟩, he]

/-! ### Helper lemmas: Pearson correlation of perfectly correlated samples -/

/-- The centred square sum is nonnegative. -/
lemma sqSumFst_nonneg (ps : List (ℚ × ℚ)) : 0 ≤ sqSumFst ps := by
  unfold sqSumFst
  apply List.sum_nonneg
  intro x hx
  obtain ⟨p, -, hp⟩ := List.mem_map.mp hx
  exact hp ▸ sq_nonneg _

/-- The centred square sum of the second components is nonnegative. -/
lemma sqSumSnd_nonneg (ps : List (ℚ × ℚ)) : 0 ≤ sqSumSnd ps := by
  unfold sqSumSnd
  apply List.sum_nonneg
  intro x hx
  obtain ⟨p, -, hp⟩ := List.mem_map.mp hx
  exact hp ▸ sq_nonneg _

/-- On the diagonal sample `(a, a)` the three centred sums coincide. -/
lemma sums_diag (l : List ℚ) :
    crossSum (l.map fun a => (a, a)) = sqSumFst (l.map fun a => (a, a)) ∧
    sqSumSnd (l.map fun a => (a, a)) = sqSumFst (l.map fun a => (a, a)) := by
  have hfst : List.map (Prod.fst ∘ fun a : ℚ => (a, a)) l = l :=
    (List.map_congr_left fun a _ => rfl).trans (List.map_id l)
  have hsnd : List.map (Prod.snd ∘ fun a : ℚ => (a, a)) l = l :=
    (List.map_congr_left fun a _ => rfl).trans (List.map_id l)
  constructor
  · simp only [crossSum, sqSumFst, List.map_map, hfst, hsnd]
    congr 1
    apply List.map_congr_left
    intro a _
    simp only [Function.comp_apply]
    ring
  · simp only [sqSumSnd, sqSumFst, List.map_map, hfst, hsnd]
    exact congrArg List.sum (List.map_congr_left fun a _ => rfl)

/-- A sample that is exactly its own copy has Pearson correlation exactly 1
(provided it is not constant). -/
lemma pearson_diag (l : List ℚ)
    (h : sqSumFst (l.map fun a => (a, a)) ≠ 0) :
    pearson (l.map fun a => (a, a)) = some 1 := by
  obtain ⟨hc, hs⟩ := sums_diag l
  unfold pearson
  rw [if_neg (by rw [hs]; exact fun hor => h (hor.elim id id))]
  rw [hc, hs]
  congr 1
  rw [Real.mul_self_sqrt (by exact_mod_cast sqSumFst_nonneg _)]
  exact div_self (by exact_mod_cast h)

/-- On the antidiagonal sample `(a, -a)` the cross sum is the negated square
sum and the two square sums coincide. -/
lemma sums_antidiag (l : List ℚ) :
    crossSum (l.map fun a => (a, -a)) = -sqSumFst (l.map fun a => (a, -a)) ∧
    sqSumSnd (l.map fun a => (a, -a)) = sqSumFst (l.map fun a => (a, -a)) := by
  have hfst : List.map (Prod.fst ∘ fun a : ℚ => (a, -a)) l = l :=
    (List.map_congr_left fun a _ => rfl).trans (List.map_id l)
  have hsnd : List.map (Prod.snd ∘ fun a : ℚ => (a, -a)) l =
      l.map (fun a => -a) := List.map_congr_left fun a _ => rfl
  have hmean : listMean (l.map fun a : ℚ => -a) = -listMean l := by
    simp only [listMean, List.length_map, ← List.sum_neg]
    ring
  constructor
  · simp only [crossSum, sqSumFst, List.map_map, hfst, hsnd, hmean]
    rw [List.sum_neg, List.map_map]
    congr 1
    apply List.map_congr_left
    intro a _
    simp only [Function.comp_apply]
    ring
  · simp only [sqSumSnd, sqSumFst, List.map_map, hfst, hsnd, hmean]
    congr 1
    apply List.map_congr_left
    intro a _
    simp only [Function.comp_apply]
    ring

/-- A sample paired with its own negation has Pearson correlation exactly
-1 (provided it is not constant). -/
lemma pearson_antidiag (l : List ℚ)
    (h : sqSumFst (l.map fun a => (a, -a)) ≠ 0) :
    pearson (l.map fun a => (a, -a)) = some (-1) := by
  obtain ⟨hc, hs⟩ := sums_antidiag l
  unfold pearson
  rw [if_neg (by rw [hs]; exact fun hor => h (hor.elim id id))]
  rw [hc, hs]
  congr 1
  rw [Real.mul_self_sqrt (by exact_mod_cast sqSumFst_nonneg _)]
  push_cast
  rw [neg_div]
  rw [div_self (by exact_mod_cast h)]

/-! ### Helper lemmas: evaluating the scanner on perfectly correlated data -/

/-- A correlation of exactly 1 gives a positively infinite t-statistic. -/
lemma tStat_one (n : ℕ) (h : 2 ≤ n) : tStat 1 n = .pinf := by
  unfold tStat
  rw [if_neg (by omega)]
  norm_num

/-- A correlation of exactly -1 gives a negatively infinite t-statistic. -/
lemma tStat_negOne (n : ℕ) (h : 2 ≤ n) : tStat (-1) n = .ninf := by
  unfold tStat
  rw [if_neg (by omega)]
  norm_num

/-- Evaluation of one scanner candidate whose valid pairs form a diagonal
(perfectly correlated) sample: the emitted link has strength exactly 1 and
p-value exactly 0. -/
lemma processPair_diag (alpha : ℝ) (halpha : 0 < alpha)
    (xc yc : List (Option ℚ)) (xn yn : String) (lag : ℕ) (l : List ℚ)
    (hv : validPairs (shiftLag lag xc) yc = l.map fun a => (a, a))
    (hS : sqSumFst (l.map fun a => (a, a)) ≠ 0)
    (hn : 10 < l.length) :
    processPair alpha xc yc xn yn lag =
      some ⟨xn, yn, lag, .fin 1, .fin 0, "high", some l.length⟩ := by
  simp only [processPair, hv, List.length_map]
  rw [if_neg (by omega), pearson_diag l hS]
  dsimp only
  rw [if_pos (⟨by norm_num, hn⟩ : 3 / 10 < |(1 : ℝ)| ∧ 10 < l.length),
    tStat_one l.length (by omega)]
  dsimp only [studentPValue]
  rw [if_pos halpha, if_pos (by norm_num : (0 : ℝ) < 1 / 100)]

/-- Evaluation of one scanner candidate whose valid pairs form an
antidiagonal (perfectly anticorrelated) sample: the emitted link has
strength exactly -1 and p-value exactly 0. -/
lemma processPair_antidiag (alpha : ℝ) (halpha : 0 < alpha)
    (xc yc : List (Option ℚ)) (xn yn : String) (lag : ℕ) (l : List ℚ)
    (hv : validPairs (shiftLag lag xc) yc = l.map fun a => (a, -a))
    (hS : sqSumFst (l.map fun a => (a, -a)) ≠ 0)
    (hn : 10 < l.length) :
    processPair alpha xc yc xn yn lag =
      some ⟨xn, yn, lag, .fin (-1), .fin 0, "high", some l.length⟩ := by
  simp only [processPair, hv, List.length_map]
  rw [if_neg (by omega), pearson_antidiag l hS]
  dsimp only
  rw [if_pos (⟨by norm_num, hn⟩ : 3 / 10 < |(-1 : ℝ)| ∧ 10 < l.length),
    tStat_negOne l.length (by omega)]
  dsimp only [studentPValue]
  rw [if_pos halpha, if_pos (by norm_num : (0 : ℝ) < 1 / 100)]

/-- The fallback scanner on `wTable` (`tau_max = 0`, `alpha = 0.05`) emits
`wLink`. -/
lemma wLink_mem :
    wLink ∈ (fallbackCorrelationAnalysis 0 (1 / 20) wTable
      ["x", "y"]).causalLinks := by
  apply mem_fallbackLinks.mpr
  refine ⟨(0, 1, 0), by decide, ?_⟩
  exact processPair_diag (1 / 20) (by norm_num) (colOf wTable "x")
    (colOf wTable "y") "x" "y" 0 wVals (by decide)
    (by simp [sqSumFst, listMean, wVals]; norm_num) (by decide)

/-- Evaluation of `_extract_causal_links` on the concrete matrices: exactly
one link survives, with p-value 0.1 and confidence `"medium"`. -/
lemma c5_eval :
    extractCausalLinks 0 (1 / 5) c5ValM c5PM ["a", "b"] = [c5Link] := by
  unfold extractCausalLinks
  have h2 : (["a", "b"] : List String).length = 2 := rfl
  rw [h2]
  have hr2 : List.range 2 = [0, 1] := by decide
  have hr1 : List.range (0 + 1) = [0] := by decide
  rw [hr2, hr1]
  simp only [List.flatMap_cons, List.flatMap_nil, List.filterMap_cons,
    List.filterMap_nil, c5ValM, c5PM]
  norm_num [FVal.flt, FVal.absGt]
  rw [if_pos (show (1 : ℝ) / 10 < |1 / 2| by
    rw [abs_of_pos (by norm_num : (0 : ℝ) < 1 / 2)]; norm_num)]
  simp [List.insertionSort, List.orderedInsert, c5Link]

/-- A candidate whose valid pairs have zero centred cross-sum is never
emitted: its correlation is either NaN (zero variance) or exactly 0, and
0 fails the `abs(corr) > 0.3` gate. -/
lemma processPair_zero_corr (alpha : ℝ) (xc yc : List (Option ℚ))
    (xn yn : String) (lag : ℕ)
    (h0 : crossSum (validPairs (shiftLag lag xc) yc) = 0) :
    processPair alpha xc yc xn yn lag = none := by
  simp only [processPair]
  split
  · rfl
  · cases hp : pearson (validPairs (shiftLag lag xc) yc) with
    | none => rfl
    | some r =>
      have hr : r = 0 := by
        unfold pearson at hp
        split at hp
        · exact absurd hp (by simp)
        · have he := Option.some_inj.mp hp
          rw [← he, h0]
          push_cast
          rw [zero_div]
      subst hr
      have hgate : ¬(3 / 10 < |(0 : ℝ)| ∧
          10 < (validPairs (shiftLag lag xc) yc).length) := by
        rintro ⟨hc, -⟩
        rw [abs_zero] at hc
        norm_num at hc
      dsimp only
      rw [if_neg hgate]

/-- Date keys of the sorted and the raw table coincide as multisets, so the
stable sort of two mutually permuted tables with duplicate-free date keys
yields the same table: both sorts are permutations of each other and
strictly sorted on the keys. -/
lemma sortByDate_eq_of_perm {t1 t2 : Table} (hperm : List.Perm t1 t2)
    (hnd : (t1.map Prod.fst).Nodup) : sortByDate t1 = sortByDate t2 := by
  classical
  unfold sortByDate
  haveI : IsTotal (ℕ × (String → Option ℚ)) (fun a b => a.1 ≤ b.1) :=
    ⟨fun a b => Nat.le_total a.1 b.1⟩
  haveI : IsTrans (ℕ × (String → Option ℚ)) (fun a b => a.1 ≤ b.1) :=
    ⟨fun _ _ _ h1 h2 => le_trans h1 h2⟩
  haveI : IsAntisymm (ℕ × (String → Option ℚ)) (fun a b => a.1 < b.1) :=
    ⟨fun _ _ h1 h2 => absurd h2 (not_lt.mpr (le_of_lt h1))⟩
  have key : ∀ t : Table, (t.map Prod.fst).Nodup →
      List.Sorted (fun a b : ℕ × (String → Option ℚ) => a.1 < b.1)
        (List.insertionSort (fun a b => a.1 ≤ b.1) t) := by
    intro t hn
    have hs := List.sorted_insertionSort
      (fun a b : ℕ × (String → Option ℚ) => a.1 ≤ b.1) t
    have hn1 : ((List.insertionSort (fun a b => a.1 ≤ b.1) t).map
        Prod.fst).Nodup :=
      (((List.perm_insertionSort _ t).map Prod.fst).nodup_iff).mpr hn
    have hpw := List.pairwise_map.mp hn1
    exact (hs.and hpw).imp fun hab => lt_of_le_of_ne hab.1 hab.2
  exact List.eq_of_perm_of_sorted
    ((List.perm_insertionSort _ t1).trans
      (hperm.trans (List.perm_insertionSort _ t2).symm))
    (key t1 hnd) (key t2 (((hperm.map Prod.fst).nodup_iff).mp hnd))

/-- Scanner evaluation on the duplicate-date table in its original order:
lag 0 is orthogonal (skipped), lag 1 `x → y` is perfectly correlated and
lag 1 `y → x` perfectly anticorrelated. -/
lemma linksA_eval :
    (fallbackCorrelationAnalysis 1 (1 / 20) tableDupA
      ["x", "y"]).causalLinks = [linkA1, linkA2] := by
  have h0 : processPair (1 / 20) (colOf tableDupA "x") (colOf tableDupA "y")
      "x" "y" 0 = none := by
    apply processPair_zero_corr
    have hv : validPairs (shiftLag 0 (colOf tableDupA "x"))
        (colOf tableDupA "y") =
        [((0 : ℚ), (-1 : ℚ)), (1, 0), (0, 1), (-1, 0), (0, -1), (1, 0),
          (0, 1), (-1, 0), (0, -1), (1, 0), (0, 1), (-1, 0)] := by decide
    rw [hv]
    simp [crossSum, listMean]
  have h1 : processPair (1 / 20) (colOf tableDupA "x") (colOf tableDupA "y")
      "x" "y" 1 = some linkA1 :=
    processPair_diag (1 / 20) (by norm_num) _ _ "x" "y" 1
      [0, 1, 0, -1, 0, 1, 0, -1, 0, 1, 0] (by decide)
      (by simp [sqSumFst, listMean]; norm_num) (by decide)
  have h2 : processPair (1 / 20) (colOf tableDupA "y") (colOf tableDupA "x")
      "y" "x" 1 = some linkA2 :=
    processPair_antidiag (1 / 20) (by norm_num) _ _ "y" "x" 1
      [-1, 0, 1, 0, -1, 0, 1, 0, -1, 0, 1] (by decide)
      (by simp [sqSumFst, listMean]; norm_num) (by decide)
  simp only [fallbackCorrelationAnalysis]
  rw [show scannedCandidates (["x", "y"] : List String).length 1 =
    [(0, 1, 0), (0, 1, 1), (1, 0, 1)] by decide]
  simp only [List.filterMap_cons, List.filterMap_nil, List.getD_cons_zero,
    List.getD_cons_succ]
  rw [h0, h1, h2]

/-- Scanner evaluation on the reversed duplicate-date table: the two lag-1
strengths flip sign. -/
lemma linksB_eval :
    (fallbackCorrelationAnalysis 1 (1 / 20) tableDupB
      ["x", "y"]).causalLinks = [linkB1, linkB2] := by
  have h0 : processPair (1 / 20) (colOf tableDupB "x") (colOf tableDupB "y")
      "x" "y" 0 = none := by
    apply processPair_zero_corr
    have hv : validPairs (shiftLag 0 (colOf tableDupB "x"))
        (colOf tableDupB "y") =
        [((-1 : ℚ), (0 : ℚ)), (0, 1), (1, 0), (0, -1), (-1, 0), (0, 1),
          (1, 0), (0, -1), (-1, 0), (0, 1), (1, 0), (0, -1)] := by decide
    rw [hv]
    simp [crossSum, listMean]
  have h1 : processPair (1 / 20) (colOf tableDupB "x") (colOf tableDupB "y")
      "x" "y" 1 = some linkB1 :=
    processPair_antidiag (1 / 20) (by norm_num) _ _ "x" "y" 1
      [-1, 0, 1, 0, -1, 0, 1, 0, -1, 0, 1] (by decide)
      (by simp [sqSumFst, listMean]; norm_num) (by decide)
  have h2 : processPair (1 / 20) (colOf tableDupB "y") (colOf tableDupB "x")
      "y" "x" 1 = some linkB2 :=
    processPair_diag (1 / 20) (by norm_num) _ _ "y" "x" 1
      [0, 1, 0, -1, 0, 1, 0, -1, 0, 1, 0] (by decide)
      (by simp [sqSumFst, listMean]; norm_num) (by decide)
  simp only [fallbackCorrelationAnalysis]
  rw [show scannedCandidates (["x", "y"] : List String).length 1 =
    [(0, 1, 0), (0, 1, 1), (1, 0, 1)] by decide]
  simp only [List.filterMap_cons, List.filterMap_nil, List.getD_cons_zero,
    List.getD_cons_succ]
  rw [h0, h1, h2]

/-- `analyze_causality` on the duplicate-date table reaches the fallback
analysis of the table itself (the all-equal-keys stable sort and the
dropna leave it unchanged). -/
lemma analyzeA_eval :
    analyzeCausality 1 (1 / 20) tableDupA ["x", "y"] 12 =
      .fallback (fallbackCorrelationAnalysis 1 (1 / 20) tableDupA
        ["x", "y"]) := by
  unfold analyzeCausality
  rw [if_neg (by decide)]
  rw [show dropnaRows (sortByDate tableDupA) ["x", "y"] = tableDupA from
    rfl]
  rw [if_neg (by decide)]

/-- Same for the reversed table. -/
lemma analyzeB_eval :
    analyzeCausality 1 (1 / 20) tableDupB ["x", "y"] 12 =
      .fallback (fallbackCorrelationAnalysis 1 (1 / 20) tableDupB
        ["x", "y"]) := by
  unfold analyzeCausality
  rw [if_neg (by decide)]
  rw [show dropnaRows (sortByDate tableDupB) ["x", "y"] = tableDupB from
    rfl]
  rw [if_neg (by decide)]

/-! ### Helper lemmas: in-order deduplication -/

/-- Membership through the deduplicating fold. -/
lemma mem_dedupInOrder_aux (l : List String) (x : String) :
    ∀ acc : List String,
      (x ∈ l.foldl (fun a y => if y ∈ a then a else a ++ [y]) acc ↔
        x ∈ acc ∨ x ∈ l) := by
  induction l with
  | nil => intro acc; simp
  | cons b l ih =>
    intro acc
    simp only [List.foldl_cons]
    rw [ih]
    by_cases h : b ∈ acc
    · rw [if_pos h]
      constructor
      · rintro (hx | hx)
        · exact Or.inl hx
        · exact Or.inr (List.mem_cons_of_mem _ hx)
      · rintro (hx | hx)
        · exact Or.inl hx
        · rcases List.mem_cons.mp hx with rfl | hx
          · exact Or.inl h
          · exact Or.inr hx
    · rw [if_neg h]
      simp only [List.mem_append, List.mem_singleton, List.mem_cons]
      tauto

/-- The deduplicating fold preserves duplicate-freedom. -/
lemma nodup_dedupInOrder_aux (l : List String) :
    ∀ acc : List String, acc.Nodup →
      (l.foldl (fun a y => if y ∈ a then a else a ++ [y]) acc).Nodup := by
  induction l with
  | nil => intro acc h; simpa
  | cons b l ih =>
    intro acc h
    simp only [List.foldl_cons]
    by_cases hb : b ∈ acc
    · rw [if_pos hb]
      exact ih acc h
    · rw [if_neg hb]
      apply ih
      simp [List.nodup_append, h, hb]

/-- `dedupInOrder` preserves membership. -/
lemma mem_dedupInOrder {x : String} {l : List String} :
    x ∈ dedupInOrder l ↔ x ∈ l := by
  unfold dedupInOrder
  rw [mem_dedupInOrder_aux]
  simp

/-- `dedupInOrder` is duplicate-free. -/
lemma nodup_dedupInOrder (l : List String) : (dedupInOrder l).Nodup :=
  nodup_dedupInOrder_aux l [] List.nodup_nil

/-! ### Helper lemmas: the fallback z-score anomaly detector -/

/-- `getD` through an index-indexed map, in-range case. -/
lemma getD_map_range {α : Type} (n : ℕ) (f : ℕ → α) (d : α) {i : ℕ}
    (h : i < n) : ((List.range n).map f).getD i d = f i := by
  rw [List.getD_eq_getElem _ _ (by simpa using h)]
  simp

/-- `getD` through an index-indexed map, out-of-range case. -/
lemma getD_map_range_ge {α : Type} (n : ℕ) (f : ℕ → α) (d : α) {i : ℕ}
    (h : n ≤ i) : ((List.range n).map f).getD i d = d :=
  List.getD_eq_default _ _ (by simpa using h)

/-- The z-score list has one entry per series point. -/
lemma length_zScores (s : List (Option ℚ)) (w : ℕ) :
    (zScores s w).length = s.length := by
  simp [zScores]

/-- The rolling mean is NaN on the first `w - 1` positions. -/
lemma rollingMean_none_of_lt {s : List (Option ℚ)} {w i : ℕ}
    (h1 : i + 1 < w) (h2 : i < s.length) :
    (rollingMean w s).getD i none = none := by
  unfold rollingMean
  rw [getD_map_range _ _ _ h2, if_pos h1]

/-- The rolling standard deviation is NaN on the first `w - 1`
positions. -/
lemma rollingStd_none_of_lt {s : List (Option ℚ)} {w i : ℕ}
    (h1 : i + 1 < w) (h2 : i < s.length) :
    (rollingStd w s).getD i none = none := by
  unfold rollingStd
  rw [getD_map_range _ _ _ h2, if_pos (Or.inl h1)]

/-- A present z-score comes from a present value, rolling mean and rolling
standard deviation, and is the epsilon-guarded absolute z formula. -/
lemma zScores_getD_some {s : List (Option ℚ)} {w i : ℕ} {zv : ℝ}
    (h : (zScores s w).getD i none = some zv) :
    ∃ v m sd, s.getD i none = some v ∧
      (rollingMean w s).getD i none = some m ∧
      (rollingStd w s).getD i none = some sd ∧
      zv = |((v : ℝ) - (m : ℝ)) / (sd + 1 / 1000000)| := by
  by_cases hi : i < s.length
  · unfold zScores at h
    rw [getD_map_range _ _ _ hi] at h
    rcases hs : s.getD i none with _ | v <;> rw [hs] at h
    · exact absurd h (by simp)
    · rcases hm : (rollingMean w s).getD i none with _ | m <;> rw [hm] at h
      · exact absurd h (by simp)
      · rcases hsd : (rollingStd w s).getD i none with _ | sd <;>
          rw [hsd] at h
        · exact absurd h (by simp)
        · exact ⟨v, m, sd, rfl, rfl, rfl, (Option.some_inj.mp h).symm⟩
  · exfalso
    unfold zScores at h
    rw [getD_map_range_ge _ _ _ (by omega)] at h
    exact absurd h (by simp)

/-- Every emitted anomaly record comes from a selected rank/index pair with
a present z-score, and carries exactly the fields the loop builds. -/
lemma mem_anomalies_inv {s : List (Option ℚ)} {w k : ℕ} {a : Anomaly}
    (h : a ∈ (fallbackAnomalyDetection s w k).anomalies) :
    ∃ rank idx zv, (zScores s w).getD idx none = some zv ∧
      a = ⟨rank + 1, idx, (s.getD idx none).getD 0, zv,
        if 3 < zv then "high" else "medium"⟩ := by
  simp only [fallbackAnomalyDetection] at h
  rw [List.mem_filterMap] at h
  obtain ⟨ri, -, hf⟩ := h
  rcases hz : (zScores s w).getD ri.2 none with _ | zv <;> rw [hz] at hf
  · exact absurd hf (by simp)
  · exact ⟨ri.1, ri.2, zv, hz, (Option.some_inj.mp hf).symm⟩

/-- The argsort comparison is total. -/
lemma zle_total (a b : Option ℝ) : zle a b ∨ zle b a := by
  rcases a with _ | x <;> rcases b with _ | y
  · exact Or.inl trivial
  · exact Or.inr trivial
  · exact Or.inl trivial
  · rcases le_total x y with h | h
    · exact Or.inl h
    · exact Or.inr h

/-- The argsort comparison is transitive. -/
lemma zle_trans {a b c : Option ℝ} (h1 : zle a b) (h2 : zle b c) :
    zle a c := by
  rcases a with _ | x <;> rcases b with _ | y <;> rcases c with _ | z
  · trivial
  · simp [zle] at h2
  · trivial
  · simp [zle] at h1
  · trivial
  · simp [zle] at h2
  · trivial
  · exact le_trans h1 h2

open Classical in
/-- The index list produced by the argsort has one entry per z-score. -/
lemma length_argsortZ (z : List (Option ℝ)) :
    (argsortZ z).length = z.length := by
  unfold argsortZ
  rw [(List.perm_insertionSort _ _).length_eq]
  exact List.length_range _

open Classical in
/-- When at least `k` of the z-scores are NaN, the last `k` argsort slots
all hold NaN positions: the sort puts NaN (greatest) last, and fewer than
`length - k` positions are non-NaN. -/
lemma argsort_drop_isNone (z : List (Option ℝ)) (k : ℕ)
    (hcount : k ≤ (List.range z.length).countP
      (fun i => ((z.getD i none).isNone : Bool))) :
    ∀ idx ∈ (argsortZ z).drop (z.length - k),
      (z.getD idx none).isNone = true := by
  classical
  intro idx hidx
  by_contra hns
  obtain ⟨zv, hzv⟩ : ∃ zv, z.getD idx none = some zv := by
    rcases hx : z.getD idx none with _ | zv
    · rw [hx] at hns
      exact absurd rfl hns
    · exact ⟨zv, rfl⟩
  have hsorted : List.Pairwise
      (fun i j => zle (z.getD i none) (z.getD j none)) (argsortZ z) := by
    haveI : IsTotal ℕ (fun i j => zle (z.getD i none) (z.getD j none)) :=
      ⟨fun a b => zle_total _ _⟩
    haveI : IsTrans ℕ (fun i j => zle (z.getD i none) (z.getD j none)) :=
      ⟨fun _ _ _ h1 h2 => zle_trans h1 h2⟩
    unfold argsortZ
    apply List.sorted_insertionSort
  have hsplit : argsortZ z = (argsortZ z).take (z.length - k) ++
      (argsortZ z).drop (z.length - k) := (List.take_append_drop _ _).symm
  have hrel : ∀ e ∈ (argsortZ z).take (z.length - k),
      zle (z.getD e none) (z.getD idx none) := by
    rw [hsplit] at hsorted
    exact fun e he => (List.pairwise_append.mp hsorted).2.2 e he idx hidx
  have htake : ∀ e ∈ (argsortZ z).take (z.length - k),
      ((z.getD e none).isSome : Bool) = true := by
    intro e he
    have hz2 := hrel e he
    rw [hzv] at hz2
    rcases hx : z.getD e none with _ | u
    · rw [hx] at hz2
      exact absurd hz2 (by simp [zle])
    · rfl
  have hcount_take : ((argsortZ z).take (z.length - k)).countP
      (fun i => ((z.getD i none).isSome : Bool)) = z.length - k := by
    rw [List.countP_eq_length.mpr htake, List.length_take, length_argsortZ]
    omega
  have hcount_drop : 0 < ((argsortZ z).drop (z.length - k)).countP
      (fun i => ((z.getD i none).isSome : Bool)) :=
    List.countP_pos_iff.mpr ⟨idx, hidx, by rw [hzv]; rfl⟩
  have htotal : (argsortZ z).countP
      (fun i => ((z.getD i none).isSome : Bool)) =
      ((argsortZ z).take (z.length - k)).countP
        (fun i => ((z.getD i none).isSome : Bool)) +
      ((argsortZ z).drop (z.length - k)).countP
        (fun i => ((z.getD i none).isSome : Bool)) := by
    conv_lhs => rw [hsplit]
    exact List.countP_append _ _ _
  have hperm : (argsortZ z).countP
      (fun i => ((z.getD i none).isSome : Bool)) =
      (List.range z.length).countP
        (fun i => ((z.getD i none).isSome : Bool)) := by
    unfold argsortZ
    exact (List.perm_insertionSort _ _).countP_eq _
  have hpart : (List.range z.length).countP
      (fun i => ((z.getD i none).isSome : Bool)) +
      (List.range z.length).countP
        (fun i => ((z.getD i none).isNone : Bool)) = z.length := by
    have hsum := List.length_eq_countP_add_countP
      (fun i => ((z.getD i none).isSome : Bool)) (List.range z.length)
    have hcongr : (List.range z.length).countP
        (fun a => decide ¬((z.getD a none).isSome = true)) =
        (List.range z.length).countP
          (fun i => ((z.getD i none).isNone : Bool)) := by
      apply List.countP_congr
      intro i _hi
      rcases hx : z.getD i none with _ | u <;> simp
    rw [hcongr] at hsum
    rw [← hsum, List.length_range]
  omega

open Classical in
/-- When at least `top_k` of the z-scores are NaN, every selected index has
a NaN z-score (numpy argsort places NaN last) and the emitted anomaly list
is empty. -/
lemma anomalies_nil_of_nan_topk (s : List (Option ℚ)) (w k : ℕ)
    (hk : k ≠ 0)
    (hcount : k ≤ (List.range (zScores s w).length).countP
      (fun i => (((zScores s w).getD i none).isNone : Bool))) :
    (fallbackAnomalyDetection s w k).anomalies = [] := by
  have hkey := argsort_drop_isNone (zScores s w) k hcount
  simp only [fallbackAnomalyDetection]
  rw [if_neg hk, List.filterMap_eq_nil_iff]
  intro ri hri
  have hidx : ri.2 ∈ ((argsortZ (zScores s w)).drop
      ((zScores s w).length - k)).reverse := by
    have hmem := List.mem_map_of_mem Prod.snd hri
    rwa [List.enum_map_snd] at hmem
  rw [List.mem_reverse] at hidx
  have hno := hkey ri.2 hidx
  rcases hx : (zScores s w).getD ri.2 none with _ | zv
  · rfl
  · rw [hx] at hno
    exact absurd hno (by simp)

/-- On a fully populated series with window at least 2, a z-score is NaN
exactly on the first `w - 1` positions. -/
lemma zScores_getD_isNone_iff (s : List (Option ℚ)) (w : ℕ) (hw : 2 ≤ w)
    (hall : ∀ c ∈ s, c.isSome = true) {i : ℕ} (hi : i < s.length) :
    (((zScores s w).getD i none).isNone : Bool) = decide (i + 1 < w) := by
  by_cases hlt : i + 1 < w
  · rw [decide_eq_true hlt]
    unfold zScores
    rw [getD_map_range _ _ _ hi, rollingMean_none_of_lt hlt hi]
    rcases hs : s.getD i none with _ | v <;> rfl
  · rw [decide_eq_false hlt]
    have hany : (rollingWindow s i w).any (fun c => c.isNone) = false := by
      rw [List.any_eq_false]
      intro c hc
      have hcs := hall c (List.mem_of_mem_drop (List.mem_of_mem_take hc))
      rcases c with _ | u
      · exact absurd hcs (by simp)
      · simp
    obtain ⟨v, hv⟩ : ∃ v, s.getD i none = some v := by
      have hmem : s.getD i none ∈ s := by
        rw [List.getD_eq_getElem _ _ hi]
        exact List.getElem_mem _
      have := hall _ hmem
      rcases hx : s.getD i none with _ | v
      · rw [hx] at this
        exact absurd this (by simp)
      · exact ⟨v, rfl⟩
    have hm : (rollingMean w s).getD i none =
        some (((rollingWindow s i w).filterMap id).sum / w) := by
      unfold rollingMean
      rw [getD_map_range _ _ _ hi, if_neg hlt, if_neg (by rw [hany]; simp)]
    have hsd : ∃ sd, (rollingStd w s).getD i none = some sd := by
      unfold rollingStd
      rw [getD_map_range _ _ _ hi, if_neg (by omega),
        if_neg (by rw [hany]; simp)]
      exact ⟨_, rfl⟩
    obtain ⟨sd, hsd⟩ := hsd
    unfold zScores
    rw [getD_map_range _ _ _ hi, hv, hm, hsd]
    rfl

/-- Exact NaN count of the z-scores of the 100-point constant series with
window 24: the 23 warm-up positions. -/
lemma c10Series_countP :
    (List.range (zScores c10Series 24).length).countP
      (fun i => (((zScores c10Series 24).getD i none).isNone : Bool)) =
      23 := by
  have hlen : (zScores c10Series 24).length = 100 := by
    rw [length_zScores]
    simp [c10Series]
  rw [hlen]
  have hcongr : (List.range 100).countP
      (fun i => (((zScores c10Series 24).getD i none).isNone : Bool)) =
      (List.range 100).countP (fun i => decide (i + 1 < 24)) := by
    apply List.countP_congr
    intro i hi
    have hi100 : i < c10Series.length := by
      simp only [c10Series, List.length_replicate]
      exact List.mem_range.mp hi
    rw [zScores_getD_isNone_iff c10Series 24 (by omega)
      (fun c hc => by rw [List.eq_of_mem_replicate hc]; rfl) hi100]
  rw [hcongr]
  decide

/-- The fallback anomaly detector returns zero anomalies on the 100-point
fully populated constant series with the 24-sample window and
`top_k = 5`. -/
lemma c10Series_anomalies_nil :
    (fallbackAnomalyDetection c10Series 24 5).anomalies = [] := by
  apply anomalies_nil_of_nan_topk _ _ _ (by omega)
  rw [c10Series_countP]
  omega

/-- A rolling mean over a window containing a NaN is NaN. -/
lemma rollingMean_window_none {s : List (Option ℚ)} {w i : ℕ}
    (hi : i < s.length) (h1 : ¬ i + 1 < w)
    (h2 : (rollingWindow s i w).any (fun c => c.isNone) = true) :
    (rollingMean w s).getD i none = none := by
  simp only [rollingMean]
  rw [getD_map_range _ _ _ hi, if_neg h1, if_pos h2]

/-- A rolling standard deviation over a window containing a NaN is NaN. -/
lemma rollingStd_window_none {s : List (Option ℚ)} {w i : ℕ}
    (hi : i < s.length) (h1 : ¬ (i + 1 < w ∨ w < 2))
    (h2 : (rollingWindow s i w).any (fun c => c.isNone) = true) :
    (rollingStd w s).getD i none = none := by
  simp only [rollingStd]
  rw [getD_map_range _ _ _ hi, if_neg h1, if_pos h2]

/-- The rolling mean of a constant window is the constant. -/
lemma rollingMean_const {s : List (Option ℚ)} {w i : ℕ} {c : ℚ}
    (hi : i < s.length) (h1 : ¬ i + 1 < w) (hw : 0 < w)
    (hwin : rollingWindow s i w = List.replicate w (some c)) :
    (rollingMean w s).getD i none = some c := by
  simp only [rollingMean]
  rw [getD_map_range _ _ _ hi, if_neg h1, hwin]
  rw [if_neg (by simp [List.any_eq_false, List.eq_of_mem_replicate])]
  congr 1
  rw [show (List.replicate w (some c)).filterMap id =
    List.replicate w c by simp [List.filterMap_replicate]]
  rw [List.sum_replicate, nsmul_eq_mul]
  field_simp

/-- The rolling standard deviation of a constant window is 0. -/
lemma rollingStd_const {s : List (Option ℚ)} {w i : ℕ} {c : ℚ}
    (hi : i < s.length) (h1 : ¬ (i + 1 < w ∨ w < 2))
    (hwin : rollingWindow s i w = List.replicate w (some c)) :
    (rollingStd w s).getD i none = some 0 := by
  have hw : 0 < w := by omega
  simp only [rollingStd]
  rw [getD_map_range _ _ _ hi, if_neg h1, hwin]
  rw [if_neg (by simp [List.any_eq_false, List.eq_of_mem_replicate])]
  rw [show (List.replicate w (some c)).filterMap id =
    List.replicate w c by simp [List.filterMap_replicate]]
  have hmean : listMean (List.replicate w c) = c := by
    unfold listMean
    rw [List.sum_replicate, nsmul_eq_mul, List.length_replicate]
    field_simp
  rw [hmean]
  congr 1
  rw [show (List.replicate w c).map (fun x => ((x - c : ℚ) : ℝ) ^ 2) =
    List.replicate w 0 by simp [List.map_replicate]]
  rw [List.sum_replicate]
  simp [Real.sqrt_eq_zero]

/-- A series without NaN is its own linear interpolation. -/
lemma linearInterp_of_no_nan (s : List (Option ℚ))
    (h : s.any (fun c => c.isNone) = false) : linearInterp s = s := by
  unfold linearInterp
  apply List.ext_getElem
  · simp
  · intro i h1 h2
    rw [List.getElem_map, List.getElem_range]
    rcases hx : s.getD i none with _ | v
    · exfalso
      have hmem : s.getD i none ∈ s := by
        rw [List.getD_eq_getElem _ _ h2]
        exact List.getElem_mem _
      rw [hx] at hmem
      rw [List.any_eq_false] at h
      exact h none hmem rfl
    · rw [List.getD_eq_getElem _ _ h2] at hx
      rw [hx]

/-- Linear interpolation fills the single interior NaN of `c4Series` with
the value interpolated between its neighbours (both 0). -/
lemma linearInterp_c4Series : linearInterp c4Series = c4Interp := by
  unfold c4Interp
  have hr : List.range (c4Series.length) = [0, 1, 2, 3, 4, 5] := by decide
  have hl : lastSomeBefore c4Series 2 = some (1, 0) := by decide
  have hf : firstSomeAfter c4Series 2 = some (3, 0) := by decide
  unfold linearInterp
  rw [hr]
  simp only [List.map_cons, List.map_nil]
  rw [hl, hf]
  norm_num [c4Series]

/-- Z-scores of the raw `c4Series`: NaN at the warm-up position 0, at the
NaN position 2 and at position 3 whose window straddles the NaN. -/
lemma zScores_c4_raw :
    zScores c4Series 2 = [none, some 0, none, none, some 0, some 0] := by
  have hm0 : (rollingMean 2 c4Series).getD 0 none = none :=
    rollingMean_none_of_lt (by omega) (by decide)
  have hm1 : (rollingMean 2 c4Series).getD 1 none = some 0 :=
    rollingMean_const (by decide) (by omega) (by omega) (by decide)
  have hm2 : (rollingMean 2 c4Series).getD 2 none = none :=
    rollingMean_window_none (by decide) (by omega) (by decide)
  have hm3 : (rollingMean 2 c4Series).getD 3 none = none :=
    rollingMean_window_none (by decide) (by omega) (by decide)
  have hm4 : (rollingMean 2 c4Series).getD 4 none = some 0 :=
    rollingMean_const (by decide) (by omega) (by omega) (by decide)
  have hm5 : (rollingMean 2 c4Series).getD 5 none = some 0 :=
    rollingMean_const (by decide) (by omega) (by omega) (by decide)
  have hs1 : (rollingStd 2 c4Series).getD 1 none = some 0 :=
    rollingStd_const (c := 0) (by decide) (by omega) (by decide)
  have hs4 : (rollingStd 2 c4Series).getD 4 none = some 0 :=
    rollingStd_const (c := 0) (by decide) (by omega) (by decide)
  have hs5 : (rollingStd 2 c4Series).getD 5 none = some 0 :=
    rollingStd_const (c := 0) (by decide) (by omega) (by decide)
  unfold zScores
  rw [show List.range c4Series.length = [0, 1, 2, 3, 4, 5] from by decide]
  simp only [List.map_cons, List.map_nil]
  rw [hm0, hm1, hm2, hm3, hm4, hm5, hs1, hs4, hs5,
    show c4Series.getD 0 none = some 0 from rfl,
    show c4Series.getD 1 none = some 0 from rfl,
    show c4Series.getD 2 none = none from rfl,
    show c4Series.getD 3 none = some 0 from rfl,
    show c4Series.getD 4 none = some 0 from rfl,
    show c4Series.getD 5 none = some 0 from rfl]
  norm_num

/-- Z-scores of the interpolated series: NaN only at the warm-up
position. -/
lemma zScores_c4_interp :
    zScores c4Interp 2 =
      [none, some 0, some 0, some 0, some 0, some 0] := by
  have hm0 : (rollingMean 2 c4Interp).getD 0 none = none :=
    rollingMean_none_of_lt (by omega) (by decide)
  have hm1 : (rollingMean 2 c4Interp).getD 1 none = some 0 :=
    rollingMean_const (by decide) (by omega) (by omega) (by decide)
  have hm2 : (rollingMean 2 c4Interp).getD 2 none = some 0 :=
    rollingMean_const (by decide) (by omega) (by omega) (by decide)
  have hm3 : (rollingMean 2 c4Interp).getD 3 none = some 0 :=
    rollingMean_const (by decide) (by omega) (by omega) (by decide)
  have hm4 : (rollingMean 2 c4Interp).getD 4 none = some 0 :=
    rollingMean_const (by decide) (by omega) (by omega) (by decide)
  have hm5 : (rollingMean 2 c4Interp).getD 5 none = some 0 :=
    rollingMean_const (by decide) (by omega) (by omega) (by decide)
  have hs1 : (rollingStd 2 c4Interp).getD 1 none = some 0 :=
    rollingStd_const (c := 0) (by decide) (by omega) (by decide)
  have hs2 : (rollingStd 2 c4Interp).getD 2 none = some 0 :=
    rollingStd_const (c := 0) (by decide) (by omega) (by decide)
  have hs3 : (rollingStd 2 c4Interp).getD 3 none = some 0 :=
    rollingStd_const (c := 0) (by decide) (by omega) (by decide)
  have hs4 : (rollingStd 2 c4Interp).getD 4 none = some 0 :=
    rollingStd_const (c := 0) (by decide) (by omega) (by decide)
  have hs5 : (rollingStd 2 c4Interp).getD 5 none = some 0 :=
    rollingStd_const (c := 0) (by decide) (by omega) (by decide)
  unfold zScores
  rw [show List.range c4Interp.length = [0, 1, 2, 3, 4, 5] from by decide]
  simp only [List.map_cons, List.map_nil]
  rw [hm0, hm1, hm2, hm3, hm4, hm5, hs1, hs2, hs3, hs4, hs5,
    show c4Interp.getD 0 none = some 0 from rfl,
    show c4Interp.getD 1 none = some 0 from rfl,
    show c4Interp.getD 2 none = some 0 from rfl,
    show c4Interp.getD 3 none = some 0 from rfl,
    show c4Interp.getD 4 none = some 0 from rfl,
    show c4Interp.getD 5 none = some 0 from rfl]
  norm_num

/-- Argsort of the raw z-scores: the finite entries 1, 4, 5 first (in
stable order), then the NaN entries 0, 2, 3 last. -/
lemma argsort_c4_raw :
    argsortZ [none, some (0 : ℝ), none, none, some 0, some 0] =
      [1, 4, 5, 0, 2, 3] := by
  unfold argsortZ
  rw [show List.range
    ([none, some (0 : ℝ), none, none, some 0, some 0].length) =
    [0, 1, 2, 3, 4, 5] from by decide]
  simp [List.insertionSort, List.orderedInsert, zle, List.getD_cons_zero,
    List.getD_cons_succ]

/-- Argsort of the interpolated z-scores: the finite entries 1-5 first,
then the single NaN entry 0 last. -/
lemma argsort_c4_interp :
    argsortZ [none, some (0 : ℝ), some 0, some 0, some 0, some 0] =
      [1, 2, 3, 4, 5, 0] := by
  unfold argsortZ
  rw [show List.range
    ([none, some (0 : ℝ), some 0, some 0, some 0, some 0].length) =
    [0, 1, 2, 3, 4, 5] from by decide]
  simp [List.insertionSort, List.orderedInsert, zle, List.getD_cons_zero,
    List.getD_cons_succ]

/-- The fallback anomaly detector on the raw NaN-bearing series selects the
two last argsort slots — both NaN positions — and therefore emits no
anomaly. -/
lemma fallbackAnomaly_c4_raw :
    fallbackAnomalyDetection c4Series 2 2 =
      ⟨"Fallback Z-Score", 0, []⟩ := by
  simp only [fallbackAnomalyDetection]
  rw [zScores_c4_raw, if_neg (by decide : ¬(2 = 0)), argsort_c4_raw]
  rfl

/-- The fallback anomaly detector on the interpolated series selects slots
0 (NaN, skipped) and 5, and emits one rank-2 anomaly of severity
`"medium"`. -/
lemma fallbackAnomaly_c4_interp :
    fallbackAnomalyDetection c4Interp 2 2 =
      ⟨"Fallback Z-Score", 1, [anomalyW]⟩ := by
  simp only [fallbackAnomalyDetection]
  rw [zScores_c4_interp, if_neg (by decide : ¬(2 = 0)), argsort_c4_interp]
  norm_num [List.enum, List.enumFrom, List.filterMap, List.getD_cons_zero,
    List.getD_cons_succ, anomalyW, c4Interp]

/-! ### Claim theorems -/

/-- C1: every causal link emitted by the analysis satisfies the
significance-and-effect gate — on the fallback correlation path the link's
p-value is below `alpha_level` and its absolute strength exceeds 0.3, and on
the primary PCMCI extraction path the p-value is below `alpha_level` and the
absolute strength exceeds 0.1. -/
theorem causal_links_pass_significance_and_effect_gate :
    (∀ (tauMax : ℕ) (alpha : ℝ) (t : Table) (vars : List String)
        (link : CausalLink),
      link ∈ (fallbackCorrelationAnalysis tauMax alpha t vars).causalLinks →
        link.pValue.flt alpha ∧ link.strength.absGt (3 / 10)) ∧
    (∀ (tauMax : ℕ) (alpha : ℝ) (valM pM : ℕ → ℕ → ℕ → FVal)
        (vars : List String) (link : CausalLink),
      link ∈ extractCausalLinks tauMax alpha valM pM vars →
        link.pValue.flt alpha ∧ link.strength.absGt (1 / 10)) := by
  constructor
  · intro tauMax alpha t vars link hmem
    obtain ⟨c, _, hp⟩ := mem_fallbackLinks.mp hmem
    obtain ⟨r, p, _, hr, _, _, hpa, he⟩ := processPair_inv hp
    subst he
    exact ⟨hpa, hr⟩
  · intro tauMax alpha valM pM vars link hmem
    obtain ⟨j, _, i, _, tau, _, h1, h2, he⟩ := mem_extractCausalLinks.mp hmem
    subst he
    exact ⟨h1, h2⟩

/-- C3: the fallback lag scanner never emits a link whose strength or
p-value is NaN or infinite — both recorded fields are always finite reals,
also for a variable pair whose valid-pair correlation is exactly ±1 (where
the intermediate t-statistic is a float infinity but the recorded p-value is
exactly 0). -/
theorem fallback_links_never_nan_or_infinite :
    ∀ (tauMax : ℕ) (alpha : ℝ) (t : Table) (vars : List String)
      (link : CausalLink),
      link ∈ (fallbackCorrelationAnalysis tauMax alpha t vars).causalLinks →
        link.strength.isFinite ∧ link.pValue.isFinite := by
  intro tauMax alpha t vars link hmem
  obtain ⟨c, _, hp⟩ := mem_fallbackLinks.mp hmem
  obtain ⟨r, p, _, _, _, _, _, he⟩ := processPair_inv hp
  subst he
  exact ⟨trivial, trivial⟩

/-- C2: the insufficient-data boundary of `analyze_causality` — below
`min_data_points` raw rows the insufficient-data result carrying the
observed count and the requirement is returned with no further processing;
with enough raw rows but fewer than `min_data_points` rows after dropping
rows missing a requested variable, the insufficient-clean-data result with
the new count is returned; with exactly `min_data_points` clean rows the
fallback analysis is performed. -/
theorem analyze_causality_insufficient_data_boundary :
    ∀ (tauMax : ℕ) (alpha : ℝ) (t : Table) (vars : List String)
      (minPts : ℕ),
      (t.length < minPts →
        analyzeCausality tauMax alpha t vars minPts =
          .insufficient t.length minPts) ∧
      (minPts ≤ t.length →
        (dropnaRows (sortByDate t) vars).length < minPts →
        analyzeCausality tauMax alpha t vars minPts =
          .insufficientClean (dropnaRows (sortByDate t) vars).length
            minPts) ∧
      (minPts ≤ t.length →
        (dropnaRows (sortByDate t) vars).length = minPts →
        analyzeCausality tauMax alpha t vars minPts =
          .fallback (fallbackCorrelationAnalysis tauMax alpha
            (dropnaRows (sortByDate t) vars) vars)) := by
  intro tauMax alpha t vars minPts
  refine ⟨?_, ?_, ?_⟩
  · intro h
    simp only [analyzeCausality]
    rw [if_pos h]
  · intro h1 h2
    simp only [analyzeCausality]
    rw [if_neg (not_lt.mpr h1), if_pos h2]
  · intro h1 h2
    simp only [analyzeCausality]
    rw [if_neg (not_lt.mpr h1), if_neg (by omega)]

/-- C7: lag-0 deduplication and lag directionality of the fallback scanner —
a candidate `(i, j, 0)` is scanned exactly when `i < j` (so at most one
ordering of an unordered pair is considered contemporaneously), every
positive lag is scanned in both orderings, and consequently, for
duplicate-free variable names, no two emitted lag-0 links are mutual
reverses of each other. -/
theorem lag0_dedup_and_lag_directionality :
    (∀ (nvars tauMax i j : ℕ), i < nvars → j < nvars → i ≠ j →
      ((i, j, 0) ∈ scannedCandidates nvars tauMax ↔ i < j)) ∧
    (∀ (nvars tauMax i j lag : ℕ), i < nvars → j < nvars → i ≠ j →
      0 < lag → lag ≤ tauMax →
        (i, j, lag) ∈ scannedCandidates nvars tauMax ∧
        (j, i, lag) ∈ scannedCandidates nvars tauMax) ∧
    (∀ (tauMax : ℕ) (alpha : ℝ) (t : Table) (vars : List String),
      vars.Nodup →
      ∀ link ∈ (fallbackCorrelationAnalysis tauMax alpha t vars).causalLinks,
        link.lag = 0 →
        ¬∃ link2 ∈ (fallbackCorrelationAnalysis tauMax alpha t
            vars).causalLinks,
          link2.lag = 0 ∧ link2.fromVar = link.toVar ∧
            link2.toVar = link.fromVar) := by
  refine ⟨?_, ?_, ?_⟩
  · intro nvars tauMax i j hi hj hne
    rw [mem_scannedCandidates]
    constructor
    · rintro ⟨_, _, _, _, h⟩
      omega
    · intro hij
      exact ⟨hi, hj, hne, Nat.zero_le _, by omega⟩
  · intro nvars tauMax i j lag hi hj hne hpos hle
    rw [mem_scannedCandidates, mem_scannedCandidates]
    exact ⟨⟨hi, hj, hne, hle, by omega⟩, ⟨hj, hi, hne.symm, hle, by omega⟩⟩
  · intro tauMax alpha t vars hnd link hmem hlag0
    rintro ⟨link2, hmem2, hlag2, hfrom2, hto2⟩
    obtain ⟨c, hc, hp⟩ := mem_fallbackLinks.mp hmem
    obtain ⟨r, p, _, _, _, _, _, he⟩ := processPair_inv hp
    obtain ⟨c2, hc2, hp2⟩ := mem_fallbackLinks.mp hmem2
    obtain ⟨r2, p2, _, _, _, _, _, he2⟩ := processPair_inv hp2
    obtain ⟨i, j, lag⟩ := c
    obtain ⟨i2, j2, lag2⟩ := c2
    rw [mem_scannedCandidates] at hc hc2
    obtain ⟨hi, hj, hij, -, hskip⟩ := hc
    obtain ⟨hi2, hj2, hij2, -, hskip2⟩ := hc2
    subst he; subst he2
    simp only at hlag0 hlag2 hfrom2 hto2
    subst hlag0; subst hlag2
    rw [List.getD_eq_getElem vars "" hi2, List.getD_eq_getElem vars "" hj,
      List.Nodup.getElem_inj_iff hnd] at hfrom2
    rw [List.getD_eq_getElem vars "" hj2, List.getD_eq_getElem vars "" hi,
      List.Nodup.getElem_inj_iff hnd] at hto2
    omega

/-- C8: the significance tester — for a correlation strictly inside
(-1, 1) and a sample size above 2, the p-value is exactly the two-tailed
Student-t survival value `2 * (1 - F_t(|t|, n - 2))` of the t-statistic
`t = r * sqrt(n - 2) / sqrt(1 - r²)`, and the p-value recorded on every
emitted fallback link is exactly this function of the link's recorded
strength and sample size.  Both computations are pure Lean functions of
their inputs, so they are deterministic and side-effect free. -/
theorem significance_tester_two_tailed_formula :
    (∀ (r : ℝ) (n : ℕ), -1 < r → r < 1 → 2 < n →
      studentPValue (tStat r n) (n - 2) =
        .fin (2 * (1 - tcdf |r * Real.sqrt ((n : ℝ) - 2) /
          Real.sqrt (1 - r ^ 2)| (n - 2)))) ∧
    (∀ (tauMax : ℕ) (alpha : ℝ) (t : Table) (vars : List String)
        (link : CausalLink),
      link ∈ (fallbackCorrelationAnalysis tauMax alpha t vars).causalLinks →
        ∃ r n, link.strength = .fin r ∧ link.sampleSize = some n ∧
          link.pValue = studentPValue (tStat r n) (n - 2)) := by
  constructor
  · intro r n h1 h2 hn
    have hd : 0 < 1 - r ^ 2 := by nlinarith
    rw [tStat, if_neg (by omega), if_pos hd]
    rfl
  · intro tauMax alpha t vars link hmem
    obtain ⟨c, -, hp⟩ := mem_fallbackLinks.mp hmem
    obtain ⟨r, p, -, -, -, hpv, -, he⟩ := processPair_inv hp
    subst he
    exact ⟨r, _, rfl, rfl, hpv.symm⟩

/-- C8 witness: the formula instance at `r = 1/2`, `n = 12`, and the
recorded-p-value instance at the concretely emitted link `wLink`. -/
theorem significance_tester_two_tailed_formula_witness :
    studentPValue (tStat (1 / 2) 12) (12 - 2) =
      .fin (2 * (1 - tcdf |(1 / 2 : ℝ) * Real.sqrt ((12 : ℝ) - 2) /
        Real.sqrt (1 - (1 / 2 : ℝ) ^ 2)| (12 - 2))) ∧
    ∃ r n, wLink.strength = .fin r ∧ wLink.sampleSize = some n ∧
      wLink.pValue = studentPValue (tStat r n) (n - 2) :=
  ⟨significance_tester_two_tailed_formula.1 (1 / 2) 12 (by norm_num)
      (by norm_num) (by norm_num),
    significance_tester_two_tailed_formula.2 0 (1 / 20) wTable ["x", "y"]
      wLink wLink_mem⟩

/-- C1 witness: the gate conclusions at the concretely emitted fallback
link `wLink` (p-value 0 < 0.05, |strength| = 1 > 0.3) and at the concretely
extracted PCMCI link `c5Link` (p-value 0.1 < 0.2, |strength| = 0.5 >
0.1). -/
theorem causal_links_gate_witness :
    (wLink.pValue.flt (1 / 20) ∧ wLink.strength.absGt (3 / 10)) ∧
    (c5Link.pValue.flt (1 / 5) ∧ c5Link.strength.absGt (1 / 10)) :=
  ⟨causal_links_pass_significance_and_effect_gate.1 0 (1 / 20) wTable
      ["x", "y"] wLink wLink_mem,
    causal_links_pass_significance_and_effect_gate.2 0 (1 / 5) c5ValM c5PM
      ["a", "b"] c5Link (by rw [c5_eval]; exact List.mem_singleton.mpr rfl)⟩

/-- C3 witness: finiteness of the recorded strength and p-value at the
concretely emitted perfectly-correlated (r = 1) link `wLink`. -/
theorem fallback_links_finite_witness :
    wLink.strength.isFinite ∧ wLink.pValue.isFinite :=
  fallback_links_never_nan_or_infinite 0 (1 / 20) wTable ["x", "y"] wLink
    wLink_mem

/-- C2 witness: the three boundary conclusions at concrete tables with
`min_data_points = 3` — two raw rows, three rows with one missing value,
and exactly three clean rows. -/
theorem analyze_causality_boundary_witness :
    analyzeCausality 0 (1 / 20) tableTwoRows ["x"] 3 =
      .insufficient 2 3 ∧
    analyzeCausality 0 (1 / 20) tableOneHole ["x"] 3 =
      .insufficientClean 2 3 ∧
    analyzeCausality 0 (1 / 20) tableThreeClean ["x"] 3 =
      .fallback (fallbackCorrelationAnalysis 0 (1 / 20)
        (dropnaRows (sortByDate tableThreeClean) ["x"]) ["x"]) := by
  refine ⟨?_, ?_, ?_⟩
  · exact (analyze_causality_insufficient_data_boundary 0 (1 / 20)
      tableTwoRows ["x"] 3).1 (by decide)
  · exact (analyze_causality_insufficient_data_boundary 0 (1 / 20)
      tableOneHole ["x"] 3).2.1 (by decide) (by decide)
  · exact (analyze_causality_insufficient_data_boundary 0 (1 / 20)
      tableThreeClean ["x"] 3).2.2 (by decide) (by decide)

/-- C7 witness: the lag-0 scan-iff at indices (0, 1) of a two-variable
list, both orderings of lag 1 being scanned, and the absence of a reverse
companion for the concretely emitted lag-0 link `wLink`. -/
theorem lag0_dedup_witness :
    ((0, 1, 0) ∈ scannedCandidates 2 0 ↔ 0 < 1) ∧
    ((0, 1, 1) ∈ scannedCandidates 2 1 ∧
      (1, 0, 1) ∈ scannedCandidates 2 1) ∧
    ¬∃ link2 ∈ (fallbackCorrelationAnalysis 0 (1 / 20) wTable
        ["x", "y"]).causalLinks,
      link2.lag = 0 ∧ link2.fromVar = wLink.toVar ∧
        link2.toVar = wLink.fromVar :=
  ⟨lag0_dedup_and_lag_directionality.1 2 0 0 1 (by decide) (by decide)
      (by decide),
    lag0_dedup_and_lag_directionality.2.1 2 1 0 1 1 (by decide) (by decide)
      (by decide) (by decide) (by decide),
    lag0_dedup_and_lag_directionality.2.2 0 (1 / 20) wTable ["x", "y"]
      (by decide) wLink wLink_mem rfl⟩

/-- C5 counterexample: with `alpha_level = 0.2` the PCMCI extraction emits
a link whose p-value 0.1 lies at or above 0.05, yet its confidence tier is
`"medium"`, not the `"low"` the claim prescribes for that range. -/
theorem confidence_tier_low_counterexample :
    c5Link ∈ extractCausalLinks 0 (1 / 5) c5ValM c5PM ["a", "b"] ∧
    c5Link.pValue = .fin (1 / 10) ∧ (1 / 20 : ℝ) ≤ 1 / 10 ∧
    specConfidenceTier (1 / 10) = "low" ∧
    c5Link.confidence = "medium" ∧
    c5Link.confidence ≠ specConfidenceTier (1 / 10) := by
  have hspec : specConfidenceTier (1 / 10) = "low" := by
    unfold specConfidenceTier
    rw [if_neg (by norm_num), if_neg (by norm_num)]
  refine ⟨by rw [c5_eval]; exact List.mem_singleton.mpr rfl, rfl,
    by norm_num, hspec, rfl, ?_⟩
  rw [hspec]
  decide

/-- C5 (amended): every emitted causal link, on both the fallback and the
PCMCI extraction path, carries a confidence tier drawn from
{`high`, `medium`} only — `high` exactly when the p-value is below 0.01 and
`medium` otherwise; the tier `low` is never assigned, even when the
configured `alpha_level` exceeds 0.05 and p-values of 0.05 or more are
emitted. -/
theorem confidence_tier_high_or_medium :
    (∀ (tauMax : ℕ) (alpha : ℝ) (t : Table) (vars : List String)
        (link : CausalLink),
      link ∈ (fallbackCorrelationAnalysis tauMax alpha t vars).causalLinks →
        (link.confidence = "high" ↔ link.pValue.flt (1 / 100)) ∧
        (link.confidence = "high" ∨ link.confidence = "medium")) ∧
    (∀ (tauMax : ℕ) (alpha : ℝ) (valM pM : ℕ → ℕ → ℕ → FVal)
        (vars : List String) (link : CausalLink),
      link ∈ extractCausalLinks tauMax alpha valM pM vars →
        (link.confidence = "high" ↔ link.pValue.flt (1 / 100)) ∧
        (link.confidence = "high" ∨ link.confidence = "medium")) := by
  constructor
  · intro tauMax alpha t vars link hmem
    obtain ⟨c, -, hp⟩ := mem_fallbackLinks.mp hmem
    obtain ⟨r, p, -, -, -, -, -, he⟩ := processPair_inv hp
    subst he
    have hms : ("medium" : String) ≠ "high" := by decide
    by_cases h : p < 1 / 100
    · rw [if_pos h]
      exact ⟨⟨fun _ => h, fun _ => rfl⟩, Or.inl rfl⟩
    · rw [if_neg h]
      exact ⟨⟨fun hc => absurd hc hms, fun hc => absurd hc h⟩,
        Or.inr rfl⟩
  · intro tauMax alpha valM pM vars link hmem
    obtain ⟨j, -, i, -, tau, -, -, -, he⟩ := mem_extractCausalLinks.mp hmem
    subst he
    have hms : ("medium" : String) ≠ "high" := by decide
    by_cases h : (pM i j tau).flt (1 / 100)
    · rw [if_pos h]
      exact ⟨⟨fun _ => h, fun _ => rfl⟩, Or.inl rfl⟩
    · rw [if_neg h]
      exact ⟨⟨fun hc => absurd hc hms, fun hc => absurd hc h⟩,
        Or.inr rfl⟩

/-- C5 witness: the amended tier rule at the concretely emitted links
`wLink` (p-value 0, high) and `c5Link` (p-value 0.1, medium). -/
theorem confidence_tier_high_or_medium_witness :
    ((wLink.confidence = "high" ↔ wLink.pValue.flt (1 / 100)) ∧
      (wLink.confidence = "high" ∨ wLink.confidence = "medium")) ∧
    ((c5Link.confidence = "high" ↔ c5Link.pValue.flt (1 / 100)) ∧
      (c5Link.confidence = "high" ∨ c5Link.confidence = "medium")) :=
  ⟨confidence_tier_high_or_medium.1 0 (1 / 20) wTable ["x", "y"] wLink
      wLink_mem,
    confidence_tier_high_or_medium.2 0 (1 / 5) c5ValM c5PM ["a", "b"]
      c5Link (by rw [c5_eval]; exact List.mem_singleton.mpr rfl)⟩

/-- C6 counterexample: for a link with lag 2 the formatted edge label is
the string `"lag=2d"`, not the `"2d"` the claim prescribes. -/
theorem lag_label_counterexample :
    (formatCausalGraph [c6Link]).edges.map GraphEdge.label = ["lag=2d"] ∧
    specLagLabel 2 = "2d" ∧
    (formatCausalGraph [c6Link]).edges.map GraphEdge.label ≠
      [specLagLabel 2] := by
  refine ⟨?_, by decide, ?_⟩
  · show [(edgeOfLink c6Link).label] = ["lag=2d"]
    unfold edgeOfLink c6Link
    decide
  · show [(edgeOfLink c6Link).label] ≠ [specLagLabel 2]
    unfold edgeOfLink c6Link specLagLabel
    decide

/-- C6 (amended): `format_causal_graph` produces a node list that is
exactly the deduplicated set of all source and target names (each node
labelled by its own name), and one edge per link in order, carrying the
link's strength, p-value and confidence, with lag label `"same day"` for
lag 0 and `"lag={lag}d"` for a positive lag. -/
theorem format_causal_graph_nodes_and_lag_labels :
    ∀ links : List CausalLink,
      (∀ name, name ∈ (formatCausalGraph links).nodes.map GraphNode.id ↔
        ∃ l ∈ links, name = l.fromVar ∨ name = l.toVar) ∧
      ((formatCausalGraph links).nodes.map GraphNode.id).Nodup ∧
      (∀ nd ∈ (formatCausalGraph links).nodes, nd.label = nd.id) ∧
      (formatCausalGraph links).edges = links.map edgeOfLink ∧
      ∀ l : CausalLink, edgeOfLink l = ⟨l.fromVar, l.toVar,
        (if 0 < l.lag then "lag=" ++ toString l.lag ++ "d" else "same day"),
        l.strength, l.pValue, l.confidence⟩ := by
  intro links
  have hid : (formatCausalGraph links).nodes.map GraphNode.id =
      dedupInOrder (links.flatMap fun l => [l.fromVar, l.toVar]) := by
    simp only [formatCausalGraph, List.map_map]
    exact (List.map_congr_left fun a _ => rfl).trans (List.map_id _)
  refine ⟨?_, ?_, ?_, rfl, fun l => rfl⟩
  · intro name
    rw [hid, mem_dedupInOrder, List.mem_flatMap]
    constructor
    · rintro ⟨l, hl, hname⟩
      rcases List.mem_cons.mp hname with rfl | hname
      · exact ⟨l, hl, Or.inl rfl⟩
      · rcases List.mem_singleton.mp hname with rfl
        exact ⟨l, hl, Or.inr rfl⟩
    · rintro ⟨l, hl, rfl | rfl⟩
      · exact ⟨l, hl, List.mem_cons_self _ _⟩
      · exact ⟨l, hl, List.mem_cons_of_mem _ (List.mem_singleton.mpr rfl)⟩
  · rw [hid]
    exact nodup_dedupInOrder _
  · intro nd hnd
    simp only [formatCausalGraph, List.mem_map] at hnd
    obtain ⟨v, -, hv⟩ := hnd
    rw [← hv]

/-- C6 witness: the amended graph shape at the one-link list
`[c6Link]` and the name `"a"`. -/
theorem format_causal_graph_witness :
    ("a" ∈ (formatCausalGraph [c6Link]).nodes.map GraphNode.id ↔
      ∃ l ∈ [c6Link], "a" = l.fromVar ∨ "a" = l.toVar) ∧
    ((formatCausalGraph [c6Link]).nodes.map GraphNode.id).Nodup ∧
    (formatCausalGraph [c6Link]).edges = [c6Link].map edgeOfLink :=
  ⟨(format_causal_graph_nodes_and_lag_labels [c6Link]).1 "a",
    (format_causal_graph_nodes_and_lag_labels [c6Link]).2.1,
    (format_causal_graph_nodes_and_lag_labels [c6Link]).2.2.2.1⟩

/-- C4 counterexample: the fallback anomaly path does not interpolate — on
the NaN-bearing series `c4Series` it returns no anomaly, while on the
linearly interpolated series it returns one, so the fallback path analyzes
the raw series, not the interpolated one. -/
theorem fallback_paths_not_interpolated_counterexample :
    c4Series.any (fun c => c.isNone) = true ∧
    fallbackAnomalyDetection c4Series 2 2 ≠
      fallbackAnomalyDetection (linearInterp c4Series) 2 2 := by
  refine ⟨by decide, ?_⟩
  rw [linearInterp_c4Series, fallbackAnomaly_c4_raw,
    fallbackAnomaly_c4_interp]
  intro h
  have hcnt := congrArg AnomalyResult.anomaliesFound h
  exact absurd hcnt (by decide)

/-- C4 (amended): NaN values are linearly interpolated before analysis
only on the primary STUMPY paths of `detect_recurring_patterns` and
`detect_anomalies`; the fallback paths take the raw series values without
interpolation, and the fallback anomaly detector's output on a NaN-bearing
series differs from its output on the interpolated series. -/
theorem interpolation_only_on_primary_paths :
    (∀ s : List (Option ℚ), primaryValues s = linearInterp s) ∧
    (∀ s : List (Option ℚ), fallbackValues s = s) ∧
    fallbackAnomalyDetection (fallbackValues c4Series) 2 2 ≠
      fallbackAnomalyDetection (linearInterp c4Series) 2 2 := by
  refine ⟨?_, fun s => rfl, ?_⟩
  · intro s
    unfold primaryValues
    by_cases h : s.any (fun c => c.isNone) = true
    · rw [if_pos h]
    · rw [if_neg h]
      exact (linearInterp_of_no_nan s (Bool.not_eq_true _ ▸ h)).symm
  · show fallbackAnomalyDetection c4Series 2 2 ≠ _
    rw [linearInterp_c4Series, fallbackAnomaly_c4_raw,
      fallbackAnomaly_c4_interp]
    intro h
    have hcnt := congrArg AnomalyResult.anomaliesFound h
    exact absurd hcnt (by decide)

/-- C10: the fallback z-score anomaly detector can return fewer than
`top_k` anomalies, even zero on a long fully populated series (the first
`window - 1` rolling statistics are NaN, argsort places those NaN z-scores
last so they fill the selected top-k slots, and NaN entries are skipped
when building the output); every returned anomaly has severity `high`
exactly when its z-score exceeds 3 and `medium` otherwise, and its z-score
is the epsilon-guarded `|(value - mean) / (std + 1e-6)|`. -/
theorem fallback_zscore_detector_shape :
    ((fallbackAnomalyDetection c10Series 24 5).anomalies = [] ∧
      c10Series.length = 100 ∧
      c10Series.all (fun c => c.isSome) = true) ∧
    (∀ (s : List (Option ℚ)) (w i : ℕ), i + 1 < w → i < s.length →
      (rollingMean w s).getD i none = none ∧
      (rollingStd w s).getD i none = none) ∧
    (∀ (s : List (Option ℚ)) (w k : ℕ) (a : Anomaly),
      a ∈ (fallbackAnomalyDetection s w k).anomalies →
        (a.severity = "high" ∨ a.severity = "medium") ∧
        (a.severity = "high" ↔ 3 < a.zScore) ∧
        ∃ v m sd, s.getD a.timestamp none = some v ∧
          (rollingMean w s).getD a.timestamp none = some m ∧
          (rollingStd w s).getD a.timestamp none = some sd ∧
          a.zScore = |((v : ℝ) - (m : ℝ)) / (sd + 1 / 1000000)|) := by
  refine ⟨⟨c10Series_anomalies_nil, by decide, by decide⟩, ?_, ?_⟩
  · intro s w i h1 h2
    exact ⟨rollingMean_none_of_lt h1 h2, rollingStd_none_of_lt h1 h2⟩
  · intro s w k a hmem
    obtain ⟨rank, idx, zv, hz, ha⟩ := mem_anomalies_inv hmem
    obtain ⟨v, m, sd, hv, hm, hsd, hzv⟩ := zScores_getD_some hz
    subst ha
    have hms : ("medium" : String) ≠ "high" := by decide
    refine ⟨?_, ?_, v, m, sd, hv, hm, hsd, hzv⟩
    · by_cases h : 3 < zv
      · rw [if_pos h]
        exact Or.inl rfl
      · rw [if_neg h]
        exact Or.inr rfl
    · by_cases h : 3 < zv
      · rw [if_pos h]
        exact ⟨fun _ => h, fun _ => rfl⟩
      · rw [if_neg h]
        exact ⟨fun hc => absurd hc hms, fun hc => absurd hc h⟩

/-- C10 witness: the empty run on the 100-point constant series, the NaN
warm-up at position 0 of `c4Series` with window 2, and the shape of the
concretely emitted anomaly `anomalyW`. -/
theorem fallback_zscore_detector_shape_witness :
    (fallbackAnomalyDetection c10Series 24 5).anomalies = [] ∧
    ((rollingMean 2 c4Series).getD 0 none = none ∧
      (rollingStd 2 c4Series).getD 0 none = none) ∧
    ((anomalyW.severity = "high" ∨ anomalyW.severity = "medium") ∧
      (anomalyW.severity = "high" ↔ 3 < anomalyW.zScore) ∧
      ∃ v m sd, c4Interp.getD anomalyW.timestamp none = some v ∧
        (rollingMean 2 c4Interp).getD anomalyW.timestamp none = some m ∧
        (rollingStd 2 c4Interp).getD anomalyW.timestamp none = some sd ∧
        anomalyW.zScore = |((v : ℝ) - (m : ℝ)) / (sd + 1 / 1000000)|) :=
  ⟨fallback_zscore_detector_shape.1.1,
    fallback_zscore_detector_shape.2.1 c4Series 2 0 (by omega) (by decide),
    fallback_zscore_detector_shape.2.2 c4Interp 2 2 anomalyW
      (by rw [fallbackAnomaly_c4_interp]; exact List.mem_singleton.mpr rfl)⟩

/-- C9 counterexample: the reversed duplicate-date table is a row
permutation of the original, yet `analyze_causality` returns different
results on the two orders — with all twelve rows sharing one date the sort
cannot restore a canonical order, and the lag-1 correlations of the two
orders have opposite signs (strength 1 versus -1 on the `x → y` lag-1
link). -/
theorem analyze_causality_perm_counterexample :
    List.Perm tableDupA tableDupB ∧
    analyzeCausality 1 (1 / 20) tableDupA ["x", "y"] 12 ≠
      analyzeCausality 1 (1 / 20) tableDupB ["x", "y"] 12 := by
  refine ⟨(List.reverse_perm tableDupA).symm, ?_⟩
  intro h
  rw [analyzeA_eval, analyzeB_eval] at h
  have hfb : fallbackCorrelationAnalysis 1 (1 / 20) tableDupA ["x", "y"] =
      fallbackCorrelationAnalysis 1 (1 / 20) tableDupB ["x", "y"] := by
    injection h
  have hlinks := congrArg FallbackResult.causalLinks hfb
  rw [linksA_eval, linksB_eval] at hlinks
  have hhead : linkA1 = linkB1 := by
    injection hlinks
  have hstr := congrArg CausalLink.strength hhead
  unfold linkA1 linkB1 at hstr
  have : (1 : ℝ) = -1 := by
    injection hstr
  norm_num at this

/-- C9 (amended): `analyze_causality` sorts the table by its date index
before any analysis, so for tables whose date keys are pairwise distinct
the result is invariant under any permutation of the input rows; with
duplicate date keys the relative order of the tied rows survives the sort
and the result can depend on it. -/
theorem analyze_causality_perm_invariant_on_nodup_dates :
    ∀ (tauMax : ℕ) (alpha : ℝ) (t1 t2 : Table) (vars : List String)
      (minPts : ℕ), List.Perm t1 t2 → (t1.map Prod.fst).Nodup →
      analyzeCausality tauMax alpha t1 vars minPts =
        analyzeCausality tauMax alpha t2 vars minPts := by
  intro tauMax alpha t1 t2 vars minPts hperm hnd
  unfold analyzeCausality
  rw [hperm.length_eq, sortByDate_eq_of_perm hperm hnd]

/-- C9 witness: invariance at a concrete two-row table with distinct dates
and its swap. -/
theorem analyze_causality_perm_invariant_witness :
    analyzeCausality 0 (1 / 20) tableSorted1 ["x"] 3 =
      analyzeCausality 0 (1 / 20) tableSorted2 ["x"] 3 :=
  analyze_causality_perm_invariant_on_nodup_dates 0 (1 / 20) tableSorted1
    tableSorted2 ["x"] 3
    (List.Perm.swap (2, xRow (some 2)) (1, xRow (some 1)) [])
    (by decide)

end MetabolicStoryTeller
